import Mathlib

/-!
# terraform-provider-sqlite: the sqlite_query data source

A shallow embedding of `internal/provider/data_source_query.go`.

* Go strings are byte sequences (`GoString`); a byte is a natural number below 256.
* The database opener, the database handle and the row cursor are the interfaces
  `newSQLiteDB`, `dbRunner` and `rowIterator` of the source.  A cursor is given by what its
  methods answer along the one call sequence `readWithModel` makes: the answer of `Columns`,
  one entry per `Next` that returns true (holding what the following `Scan` does), the
  answer of `Err` and the answer of `Close`.
* `readWithModel` returns the model, the response, and the sequence of calls it made on the
  opener, the handle and the cursor, so that ordering properties can be stated.
-/

set_option autoImplicit false

namespace SqliteQuery

/-! ## Go strings and values -/

/-- A Go string: an immutable sequence of bytes. -/
abbrev GoString := List Nat

/-- The bytes of a string literal of the source (Go stores literals as UTF-8). -/
def lit (s : String) : GoString :=
  (s.toList.flatMap String.utf8EncodeChar).map UInt8.toNat

/-- The message of a Go error value, as returned by its Error method. -/
abbrev GoError := String

/-- Decimal digits of a natural number, most significant first, prepended to `acc`.
The first argument bounds the number of digits. -/
def formatBits : Nat → Nat → GoString → GoString
  | 0, _, acc => acc
  | fuel + 1, u, acc =>
    if u < 10 then (48 + u) :: acc
    else formatBits fuel (u / 10) ((48 + u % 10) :: acc)

/-- Decimal text of an unsigned number (`strconv.FormatUint(u, 10)`). -/
def FormatUint (u : Nat) : GoString := formatBits (u + 1) u []

/-- Decimal text of a signed number (`strconv.FormatInt(n, 10)`). -/
def FormatInt (n : Int) : GoString :=
  if n < 0 then 45 :: FormatUint n.natAbs else FormatUint n.natAbs

/-! ## The text of a `float64` (`strconv.FormatFloat` with format g, shortest precision) -/

/-- Numerator of `n * 2^e / 10^k` over `scaledDen e k`. -/
def scaledNum (n : Nat) (e k : Int) : Nat := n * 2 ^ e.toNat * 10 ^ (-k).toNat

/-- Denominator that goes with `scaledNum`. -/
def scaledDen (e k : Int) : Nat := 2 ^ (-e).toNat * 10 ^ k.toNat

/-- The least d such that `d * 10^k` is not below the lower bound `l * 2^e` (above it when
the bound itself is not admitted). -/
def lowestDigits (l : Nat) (e k : Int) (inclusive : Bool) : Nat :=
  if scaledNum l e k % scaledDen e k = 0 ∧ inclusive = true then
    scaledNum l e k / scaledDen e k
  else scaledNum l e k / scaledDen e k + 1

/-- The greatest d such that `d * 10^k` is not above the upper bound `u * 2^e` (below it
when the bound itself is not admitted). -/
def highestDigits (u : Nat) (e k : Int) (inclusive : Bool) : Nat :=
  if scaledNum u e k % scaledDen e k = 0 ∧ inclusive = false then
    scaledNum u e k / scaledDen e k - 1
  else scaledNum u e k / scaledDen e k

/-- The highest decimal position k, from `k` upwards, such that a multiple of `10^k` lies
between the bounds: the position of the last digit of the shortest decimal.  The first
argument bounds the number of steps. -/
def lastPosition : Nat → Nat → Nat → Int → Bool → Int → Int
  | 0, _, _, _, _, k => k
  | fuel + 1, l, u, e, inclusive, k =>
    if lowestDigits l e (k + 1) inclusive ≤ highestDigits u e (k + 1) inclusive then
      lastPosition fuel l u e inclusive (k + 1)
    else k

/-- Decimal digits and the position of the decimal point (`decimalSlice` of strconv): the
value is `0.d * 10^dp`. -/
structure decimalSlice where
  d : GoString
  dp : Int
  deriving DecidableEq, Repr

/-- The shortest decimal that reads back as the float `mant * 2^exp`, and among those of
that length the nearest to it (halfway cases go to the even digit), as
`strconv` computes it for the precision -1.  The decimals that read back are those between
the midpoints to the neighbouring floats, the midpoints themselves only for an even
mantissa. -/
def shortestDecimal (mant : Nat) (exp : Int) : decimalSlice :=
  if mant = 0 then ⟨[], 0⟩
  else
    let regular : Bool := decide (mant ≠ 2 ^ 52 ∨ exp = -1074)
    let l := if regular then 2 * mant - 1 else 4 * mant - 1
    let c := if regular then 2 * mant else 4 * mant
    let u := if regular then 2 * mant + 1 else 4 * mant + 2
    let e := if regular then exp - 1 else exp - 2
    let inclusive : Bool := decide (mant % 2 = 0)
    let k := lastPosition 1500 l u e inclusive (min e 0)
    let q := scaledNum c e k / scaledDen e k
    let r := scaledNum c e k % scaledDen e k
    let up : Bool := decide (scaledDen e k < 2 * r ∨ (2 * r = scaledDen e k ∧ q % 2 = 1))
    let digits :=
      if up then (if q + 1 ≤ highestDigits u e k inclusive then q + 1 else q)
      else (if lowestDigits l e k inclusive ≤ q then q else q + 1)
    ⟨FormatUint digits, (FormatUint digits).length + k⟩

/-- The exponent part of the format e: a sign and at least two digits. -/
def fmtExponent (exp : Int) : GoString :=
  (if exp < 0 then 45 else 43) ::
    (if exp.natAbs < 10 then 48 :: FormatUint exp.natAbs else FormatUint exp.natAbs)

/-- The format e of strconv (`fmtE`) with `prec` digits after the point. -/
def fmtE (neg : Bool) (digs : decimalSlice) (prec : Nat) : GoString :=
  (if neg then [45] else []) ++
    [digs.d.headD 48] ++
    (if 0 < prec then
      46 :: ((digs.d.take (prec + 1)).drop 1 ++
        List.replicate (prec + 1 - max 1 (min digs.d.length (prec + 1))) 48)
    else []) ++
    101 :: fmtExponent (if digs.d.length = 0 then 0 else digs.dp - 1)

/-- The format f of strconv (`fmtF`) with `prec` digits after the point. -/
def fmtF (neg : Bool) (digs : decimalSlice) (prec : Nat) : GoString :=
  (if neg then [45] else []) ++
    (if 0 < digs.dp then
      digs.d.take digs.dp.toNat ++
        List.replicate (digs.dp.toNat - min digs.d.length digs.dp.toNat) 48
    else [48]) ++
    (if 0 < prec then
      46 :: (List.range prec).map (fun i =>
        if 0 ≤ digs.dp + i ∧ digs.dp + i < digs.d.length then
          digs.d.getD (digs.dp + i).toNat 48
        else 48)
    else [])

/-- The format g of strconv for the shortest precision (`formatDigits`): format e when the
exponent is below -4 or from 6 on, and format f otherwise. -/
def formatDigits (neg : Bool) (digs : decimalSlice) : GoString :=
  if digs.dp - 1 < -4 ∨ 6 ≤ digs.dp - 1 then fmtE neg digs (digs.d.length - 1)
  else fmtF neg digs (digs.d.length - digs.dp).toNat

/-- The text of the `float64` with the given bits, `strconv.FormatFloat(f, 'g', -1, 64)`,
which is also what `fmt.Sprint` prints for it. -/
def FormatFloat (bits : Nat) : GoString :=
  if bits / 2 ^ 52 % 2048 = 2047 then
    if bits % 2 ^ 52 ≠ 0 then lit "NaN"
    else if bits / 2 ^ 63 ≠ 0 then lit "-Inf"
    else lit "+Inf"
  else if bits / 2 ^ 52 % 2048 = 0 then
    formatDigits (decide (bits / 2 ^ 63 ≠ 0)) (shortestDecimal (bits % 2 ^ 52) (-1074))
  else
    formatDigits (decide (bits / 2 ^ 63 ≠ 0))
      (shortestDecimal (bits % 2 ^ 52 + 2 ^ 52) ((bits / 2 ^ 52 % 2048 : Nat) - 1075))

/-! ## The text of a `time.Time` -/

/-- A `time.Time` by what its methods `Date`, `Clock`, `Nanosecond` and `Zone` return: the
calendar date and the clock in the zone of the time, the abbreviation of the zone (empty
when it has none) and its offset in seconds east of UTC.  A time scanned from the database
carries no monotonic clock reading. -/
structure GoTime where
  year : Int
  month : Nat
  day : Nat
  hour : Nat
  minute : Nat
  second : Nat
  nanosecond : Nat
  zoneName : GoString
  zoneOffset : Int
  deriving DecidableEq, Repr

/-- The decimal form of a number, padded with leading zeros to the width, the sign in
front (`appendInt` of package time). -/
def appendInt (x : Int) (width : Nat) : GoString :=
  (if x < 0 then [45] else []) ++
    List.replicate (width - (FormatUint x.natAbs).length) 48 ++ FormatUint x.natAbs

/-- The fraction of a second for the layout ".999999999": nothing for a whole second, else
a point and the nanoseconds without trailing zeros. -/
def appendNano (nanosecond : Nat) : GoString :=
  if nanosecond = 0 then []
  else 46 :: ((appendInt nanosecond 9).reverse.dropWhile (fun c => decide (c = 48))).reverse

/-- The zone offset for the layout "-0700": sign, hours and minutes. -/
def numericZone (offset : Int) : GoString :=
  (if offset < 0 ∧ offset.natAbs / 60 ≠ 0 then 45 else 43) ::
    (appendInt (offset.natAbs / 60 / 60 : Nat) 2 ++ appendInt (offset.natAbs / 60 % 60 : Nat) 2)

/-- The method `Time.String`: the time in the layout
"2006-01-02 15:04:05.999999999 -0700 MST", the zone abbreviation replaced by the numeric
offset when the zone has none. -/
def GoTime.String (t : GoTime) : GoString :=
  appendInt t.year 4 ++ 45 :: appendInt t.month 2 ++ 45 :: appendInt t.day 2 ++
    32 :: appendInt t.hour 2 ++ 58 :: appendInt t.minute 2 ++ 58 :: appendInt t.second 2 ++
    appendNano t.nanosecond ++ 32 :: numericZone t.zoneOffset ++
    32 :: (if t.zoneName ≠ [] then t.zoneName else numericZone t.zoneOffset)

/-! ## Values held in a Go `any` -/

/-- A value held in a Go `any`, of the dynamic types that a scanned cell or a bind argument
has (the types of `driver.Value`): nil, `[]byte`, `int64`, `float64` (by its IEEE 754
bits), `string`, `bool` and `time.Time`. -/
inductive AnyValue where
  | nil
  | bytes (v : GoString)
  | int64 (n : Int)
  | float64 (bits : Nat)
  | str (s : GoString)
  | bool (b : Bool)
  | time (t : GoTime)
  deriving DecidableEq, Repr

/-- Join texts with single spaces. -/
def joinSpace : List GoString → GoString
  | [] => []
  | [x] => x
  | x :: y :: rest => x ++ 32 :: joinSpace (y :: rest)

/-- Default textual form of a value, `fmt.Sprint(v)`: for one operand it is the verb v of
package fmt, which prints a byte slice as its decimal elements in brackets, an integer in
decimal, a float in the format g with the shortest precision, a string as it is, a bool as
true or false, and a `time.Time`, which is a `Stringer`, by its method `String`. -/
def Sprint : AnyValue → GoString
  | .nil => lit "<nil>"
  | .bytes v => lit "[" ++ joinSpace (v.map FormatUint) ++ lit "]"
  | .int64 n => FormatInt n
  | .str s => s
  | .float64 bits => FormatFloat bits
  | .bool b => if b then lit "true" else lit "false"
  | .time t => t.String

/-- The type switch of `readWithModel` on a scanned cell (source lines 186-193):
`[]byte` is converted with `string(v)`, which keeps the bytes as they are; nil becomes the
empty string; anything else is printed with `fmt.Sprint`. -/
def normalizeCell (v : AnyValue) : GoString :=
  match v with
  | .bytes b => b
  | .nil => []
  | w => Sprint w

/-! ## Go maps from string to string -/

/-- A Go `map[string]string`, as its entries; keys are kept distinct by `GoMap.set`. -/
abbrev GoMap := List (GoString × GoString)

/-- The assignment `m[k] = v`. -/
def GoMap.set : GoMap → GoString → GoString → GoMap
  | [], k, v => [(k, v)]
  | (k0, v0) :: rest, k, v =>
    if k0 = k then (k, v) :: rest else (k0, v0) :: GoMap.set rest k v

/-- The lookup `m[k]`, with `none` for an absent key. -/
def GoMap.get? (m : GoMap) (k : GoString) : Option GoString := List.lookup k m

/-- The keys of a map. -/
def GoMap.keys (m : GoMap) : List GoString := m.map Prod.fst


/-! ## JSON encoding of the rows (`json.Marshal` on a slice of string maps) -/

/-- The rune `utf8.RuneError`, U+FFFD. -/
def RuneError : Nat := 0xFFFD

/-- For a leading byte from 0x80 on: the length of the sequence it starts and the range
accepted for the second byte (the tables `first` and `acceptRanges` of `unicode/utf8`);
`none` for a byte that cannot start a sequence. -/
def firstByte (s0 : Nat) : Option (Nat × Nat × Nat) :=
  if s0 < 0xC2 then none
  else if s0 < 0xE0 then some (2, 0x80, 0xBF)
  else if s0 = 0xE0 then some (3, 0xA0, 0xBF)
  else if s0 = 0xED then some (3, 0x80, 0x9F)
  else if s0 < 0xF0 then some (3, 0x80, 0xBF)
  else if s0 = 0xF0 then some (4, 0x90, 0xBF)
  else if s0 < 0xF4 then some (4, 0x80, 0xBF)
  else if s0 = 0xF4 then some (4, 0x80, 0x8F)
  else none

/-- The first rune of a string and its width in bytes (`utf8.DecodeRuneInString`):
`(RuneError, 1)` for bytes that are not a valid encoding, `(RuneError, 0)` for no bytes. -/
def DecodeRuneInString (s : GoString) : Nat × Nat :=
  match s with
  | [] => (RuneError, 0)
  | s0 :: t =>
    if s0 < 0x80 then (s0, 1)
    else
      match firstByte s0 with
      | none => (RuneError, 1)
      | some (sz, lo, hi) =>
        if s.length < sz then (RuneError, 1)
        else
          match t with
          | [] => (RuneError, 1)
          | s1 :: t1 =>
            if s1 < lo ∨ hi < s1 then (RuneError, 1)
            else if sz ≤ 2 then (s0 % 32 * 64 + s1 % 64, 2)
            else
              match t1 with
              | [] => (RuneError, 1)
              | s2 :: t2 =>
                if s2 < 0x80 ∨ 0xBF < s2 then (RuneError, 1)
                else if sz ≤ 3 then (s0 % 16 * 4096 + s1 % 64 * 64 + s2 % 64, 3)
                else
                  match t2 with
                  | [] => (RuneError, 1)
                  | s3 :: _ =>
                    if s3 < 0x80 ∨ 0xBF < s3 then (RuneError, 1)
                    else (s0 % 8 * 262144 + s1 % 64 * 4096 + s2 % 64 * 64 + s3 % 64, 4)

/-- The table `htmlSafeSet` of `encoding/json`: the ASCII bytes written without escaping. -/
def htmlSafeSet (b : Nat) : Bool :=
  decide (0x20 ≤ b ∧ b < 0x80 ∧ b ≠ 0x22 ∧ b ≠ 0x26 ∧ b ≠ 0x3C ∧ b ≠ 0x3E ∧ b ≠ 0x5C)

/-- One digit of the table `hex` ("0123456789abcdef"). -/
def hexDigit (n : Nat) : Nat := if n < 10 then 48 + n else 87 + n

/-- The escape written for an ASCII byte outside `htmlSafeSet`. -/
def escapeByte (b : Nat) : GoString :=
  if b = 0x5C ∨ b = 0x22 then [0x5C, b]
  else if b = 0x08 then [0x5C, 0x62]
  else if b = 0x0C then [0x5C, 0x66]
  else if b = 0x0A then [0x5C, 0x6E]
  else if b = 0x0D then [0x5C, 0x72]
  else if b = 0x09 then [0x5C, 0x74]
  else [0x5C, 0x75, 0x30, 0x30, hexDigit (b / 16), hexDigit (b % 16)]

/-- The loop of `appendString` over the bytes of a string (with HTML escaping on, as
`json.Marshal` sets it).  For a byte that is not valid UTF-8 the classic encoder writes the
escape of U+FFFD and the encoder backed by json/v2 (`raw`) writes U+FFFD itself; the source
pins neither toolchain.  The second argument bounds the number of iterations. -/
def appendStringLoop (raw : Bool) : Nat → GoString → GoString
  | 0, _ => []
  | _ + 1, [] => []
  | fuel + 1, b :: rest =>
    if b < 0x80 then
      (if htmlSafeSet b then [b] else escapeByte b) ++ appendStringLoop raw fuel rest
    else
      match DecodeRuneInString ((b :: rest).take 4) with
      | (c, size) =>
        if c = RuneError ∧ size = 1 then
          (if raw then [0xEF, 0xBF, 0xBD] else [0x5C, 0x75, 0x66, 0x66, 0x66, 0x64])
            ++ appendStringLoop raw fuel rest
        else if c = 0x2028 ∨ c = 0x2029 then
          [0x5C, 0x75, 0x32, 0x30, 0x32, hexDigit (c % 16)]
            ++ appendStringLoop raw fuel (rest.drop (size - 1))
        else
          (b :: rest).take size ++ appendStringLoop raw fuel (rest.drop (size - 1))

/-- A string as a JSON string literal (`appendString`). -/
def appendString (raw : Bool) (s : GoString) : GoString :=
  0x22 :: (appendStringLoop raw s.length s ++ [0x22])

/-- Byte-wise order of two strings, `strings.Compare a b <= 0`. -/
def compareLE : GoString → GoString → Bool
  | [], _ => true
  | _ :: _, [] => false
  | x :: xs, y :: ys => if x < y then true else if y < x then false else compareLE xs ys

/-- Insert an entry into entries sorted by key. -/
def insertEntry (e : GoString × GoString) : GoMap → GoMap
  | [] => [e]
  | x :: rest => if compareLE e.1 x.1 then e :: x :: rest else x :: insertEntry e rest

/-- The entries of a map sorted by key, the order in which the encoder writes them. -/
def sortEntries : GoMap → GoMap
  | [] => []
  | e :: rest => insertEntry e (sortEntries rest)

/-- Join texts with commas. -/
def joinComma : List GoString → GoString
  | [] => []
  | [x] => x
  | x :: y :: rest => x ++ 0x2C :: joinComma (y :: rest)

/-- One member of a JSON object. -/
def marshalEntry (raw : Bool) (e : GoString × GoString) : GoString :=
  appendString raw e.1 ++ 0x3A :: appendString raw e.2

/-- A non-nil string map as a JSON object, keys sorted. -/
def marshalMap (raw : Bool) (m : GoMap) : GoString :=
  0x7B :: (joinComma ((sortEntries m).map (marshalEntry raw)) ++ [0x7D])

/-- A non-nil slice of string maps as a JSON array (`json.Marshal(out)`). -/
def Marshal (raw : Bool) (out : List GoMap) : GoString :=
  0x5B :: (joinComma (out.map (marshalMap raw)) ++ [0x5D])

/-! ## Diagnostics of the plugin framework -/

/-- Severity of a diagnostic. -/
inductive Severity where
  | error
  | warning
  deriving DecidableEq, Repr

/-- A diagnostic: severity, summary and detail. -/
structure Diagnostic where
  severity : Severity
  summary : String
  detail : String
  deriving DecidableEq, Repr

/-- A collection of diagnostics. -/
abbrev Diagnostics := List Diagnostic

/-- The framework method `Diagnostics.Append`: adds each diagnostic that the collection
does not contain yet. -/
def Diagnostics.Append (diags : Diagnostics) (more : List Diagnostic) : Diagnostics :=
  more.foldl (fun acc d => if d ∈ acc then acc else acc ++ [d]) diags

/-- The framework method `Diagnostics.AddError`. -/
def Diagnostics.AddError (diags : Diagnostics) (summary detail : String) : Diagnostics :=
  Diagnostics.Append diags [⟨Severity.error, summary, detail⟩]

/-- The framework method `Diagnostics.HasError`. -/
def Diagnostics.HasError (diags : Diagnostics) : Bool :=
  diags.any (fun d => decide (d.severity = Severity.error))

/-- Number of error diagnostics in a collection. -/
def Diagnostics.errorCount (diags : Diagnostics) : Nat :=
  diags.countP (fun d => decide (d.severity = Severity.error))

/-! ## The model of the data source and the response -/

/-- A framework string value (`types.String`). -/
inductive TfString where
  | null
  | unknown
  | value (s : GoString)
  deriving DecidableEq, Repr

/-- The framework method `ValueString`: the empty string for null and unknown. -/
def TfString.ValueString : TfString → GoString
  | .value s => s
  | _ => []

/-- The `params` attribute (`types.Map`) as `readWithModel` observes it: whether it is
null, and what `ElementsAs` answers for it (the diagnostics it returns and the entries it
stores into the Go map `p`). -/
structure TfMap where
  IsNull : Bool
  ElementsAs : Diagnostics × GoMap
  deriving DecidableEq, Repr

/-- The struct `sqliteQueryModel`.  `Rows` is `none` while the list is null, and else the
list of row maps (a list of maps of string values). -/
structure sqliteQueryModel where
  DBPath : TfString
  Query : TfString
  Params : TfMap
  Rows : Option (List GoMap)
  ResultJSON : TfString
  deriving DecidableEq, Repr

/-- The read response: its diagnostics and the state, `none` until `State.Set` stores a
model. -/
structure ReadResponse where
  Diagnostics : Diagnostics
  State : Option sqliteQueryModel
  deriving DecidableEq, Repr

/-! ## The database interfaces -/

/-- A named bind argument, `sql.Named(name, value)`. -/
structure NamedArg where
  Name : GoString
  Value : AnyValue
  deriving DecidableEq, Repr

/-- The interface `rowIterator`: the answer of `Columns`, one entry for every `Next` that
returns true, holding the answer of the `Scan` that follows it (an error, or the values
written through the destination pointers), then `Next` returns false; the answers of `Err`
and `Close`.  The feed is finite: a cursor whose `Next` returned true for ever would keep
`readWithModel` from returning, and is left out. -/
structure rowIterator where
  Columns : Except GoError (List GoString)
  feed : List (Except GoError (List AnyValue))
  Err : Option GoError
  Close : Option GoError

/-- The interface `dbRunner`. -/
structure dbRunner where
  QueryContext : GoString → List NamedArg → Except GoError rowIterator
  Close : Option GoError

/-- What `readWithModel` depends on besides its arguments: the opener `newSQLiteDB` (a
package variable of the source), the order in which `range` visits the entries of a map
(any order, chosen by the Go runtime), the diagnostics `State.Set` returns, and which JSON
encoder the toolchain brings (`jsonV2` for the one backed by json/v2). -/
structure Env where
  newSQLiteDB : GoString → Except GoError dbRunner
  mapRange : GoMap → GoMap
  stateSet : sqliteQueryModel → Diagnostics
  jsonV2 : Bool

/-- A call made by `readWithModel` on the opener, the handle, the cursor or the state. -/
inductive Call where
  | newSQLiteDB (dsn : GoString)
  | QueryContext (query : GoString) (args : List NamedArg)
  | Columns
  | Next (more : Bool)
  | Scan (dest : Nat)
  | Err
  | rowsClose (err : Option GoError)
  | dbClose (err : Option GoError)
  | StateSet
  deriving DecidableEq, Repr

/-- What an invocation leaves behind: the model, the response and the calls made. -/
structure Outcome where
  cfg : sqliteQueryModel
  resp : ReadResponse
  calls : List Call
  deriving DecidableEq, Repr

/-! ## readWithModel -/

/-- The function `sql.Named`. -/
def Named (name : GoString) (value : AnyValue) : NamedArg := ⟨name, value⟩

/-- The response with an error diagnostic added (`resp.Diagnostics.AddError`). -/
def addError (resp : ReadResponse) (summary detail : String) : ReadResponse :=
  { resp with Diagnostics := resp.Diagnostics.AddError summary detail }

/-- Source lines 131-142: the bind arguments built from `params`.  The result is
`Except.error` with the response when the function returns at line 137, and else the
arguments with the response. -/
def bindParams (env : Env) (cfg : sqliteQueryModel) (resp : ReadResponse) :
    Except ReadResponse (List NamedArg × ReadResponse) :=
  if !cfg.Params.IsNull then
    let resp1 : ReadResponse :=
      { resp with Diagnostics := resp.Diagnostics.Append cfg.Params.ElementsAs.1 }
    if resp1.Diagnostics.HasError then Except.error resp1
    else
      Except.ok ((env.mapRange cfg.Params.ElementsAs.2).map
        (fun e => Named e.1 (AnyValue.str e.2)), resp1)
  else Except.ok ([], resp)

/-- The condition of source line 154, true when the query is refused: the query has fewer
than six bytes, or its first six bytes are neither "SELECT" nor "select". -/
def notSelect (query : GoString) : Bool :=
  decide (query.length < 6) ||
    (decide (query.take 6 ≠ lit "SELECT") && decide (query.take 6 ≠ lit "select"))

/-- The slice `vals` after a successful `Scan` on `n` destination pointers: entry `i`
holds what was written through pointer `i`, and nil where nothing was written. -/
def scanInto (n : Nat) (written : List AnyValue) : List AnyValue :=
  (List.range n).map (fun i => written.getD i AnyValue.nil)

/-- Source lines 184-194: the row map, filled column by column. -/
def makeRow (cols : List GoString) (vals : List AnyValue) : GoMap :=
  (cols.zip vals).foldl (fun row cv => GoMap.set row cv.1 (normalizeCell cv.2)) []

/-- Source lines 173-196: the loop over the cursor, started with the rows gathered so far.
It ends with the rows when `Next` returns false, and with the error of the first `Scan`
that fails. -/
def scanRows (cols : List GoString) :
    List (Except GoError (List AnyValue)) → List GoMap →
      Except GoError (List GoMap) × List Call
  | [], out => (Except.ok out, [Call.Next false])
  | Except.error err :: _, _ => (Except.error err, [Call.Next true, Call.Scan cols.length])
  | Except.ok written :: rest, out =>
    let r := scanRows cols rest (out ++ [makeRow cols (scanInto cols.length written)])
    (r.1, Call.Next true :: Call.Scan cols.length :: r.2)

/-- Source lines 166-220: from `Columns` to `State.Set`.  The list of framework values
built at lines 202-213 holds the same maps as `out`. -/
def readRows (env : Env) (cfg : sqliteQueryModel) (resp : ReadResponse)
    (rows : rowIterator) : Outcome :=
  match rows.Columns with
  | Except.error err => ⟨cfg, addError resp "columns failed" err, [Call.Columns]⟩
  | Except.ok cols =>
    match scanRows cols rows.feed [] with
    | (Except.error err, calls) =>
      ⟨cfg, addError resp "scan failed" err, Call.Columns :: calls⟩
    | (Except.ok out, calls) =>
      match rows.Err with
      | some err =>
        ⟨cfg, addError resp "row iteration failed" err, Call.Columns :: (calls ++ [Call.Err])⟩
      | none =>
        let cfg1 : sqliteQueryModel :=
          { cfg with Rows := some out, ResultJSON := TfString.value (Marshal env.jsonV2 out) }
        let diags := env.stateSet cfg1
        ⟨cfg1,
          { Diagnostics := resp.Diagnostics.Append diags,
            State := if Diagnostics.HasError diags then resp.State else some cfg1 },
          Call.Columns :: (calls ++ [Call.Err, Call.StateSet])⟩

/-- Source lines 153-220, with the deferred `rows.Close()` run on return. -/
def runQuery (env : Env) (cfg : sqliteQueryModel) (resp : ReadResponse) (db : dbRunner)
    (query : GoString) (args : List NamedArg) : Outcome :=
  if notSelect query then
    ⟨cfg, addError resp "query must be SELECT" "Only read-only SELECT queries are allowed.", []⟩
  else
    match db.QueryContext query args with
    | Except.error err => ⟨cfg, addError resp "query failed" err, [Call.QueryContext query args]⟩
    | Except.ok rows =>
      let r := readRows env cfg resp rows
      ⟨r.cfg, r.resp, Call.QueryContext query args :: (r.calls ++ [Call.rowsClose rows.Close])⟩

/-- The data source name of source line 145. -/
def dsnOf (dbPath : GoString) : GoString := lit "file:" ++ dbPath ++ lit "?mode=ro"

/-- The method `readWithModel`, with the deferred `db.Close()` run on return. -/
def readWithModel (env : Env) (cfg : sqliteQueryModel) (resp : ReadResponse) : Outcome :=
  let dbPath := cfg.DBPath.ValueString
  let query := cfg.Query.ValueString
  match bindParams env cfg resp with
  | Except.error resp1 => ⟨cfg, resp1, []⟩
  | Except.ok (args, resp1) =>
    let dsn := dsnOf dbPath
    match env.newSQLiteDB dsn with
    | Except.error err => ⟨cfg, addError resp1 "open sqlite db failed" err, [Call.newSQLiteDB dsn]⟩
    | Except.ok db =>
      let r := runQuery env cfg resp1 db query args
      ⟨r.cfg, r.resp, Call.newSQLiteDB dsn :: (r.calls ++ [Call.dbClose db.Close])⟩

/-! ## Notions used to state the properties -/

/-- The diagnostic added when the query is refused (source line 155). -/
def selectError : Diagnostic :=
  ⟨Severity.error, "query must be SELECT", "Only read-only SELECT queries are allowed."⟩

/-- The response is free of errors on entry (as `Read` guarantees before it calls
`readWithModel`) and, when `params` is not null, its conversion reports no error: the
invocation gets past source line 142. -/
def entryOK (cfg : sqliteQueryModel) (resp : ReadResponse) : Bool :=
  !resp.Diagnostics.HasError && (cfg.Params.IsNull || !Diagnostics.HasError cfg.Params.ElementsAs.1)

/-- The bind arguments built at source lines 131-142. -/
def boundArgs (env : Env) (cfg : sqliteQueryModel) : List NamedArg :=
  if cfg.Params.IsNull then []
  else (env.mapRange cfg.Params.ElementsAs.2).map (fun e => Named e.1 (AnyValue.str e.2))

/-- The response after source lines 131-142. -/
def boundResp (cfg : sqliteQueryModel) (resp : ReadResponse) : ReadResponse :=
  if cfg.Params.IsNull then resp
  else { resp with Diagnostics := resp.Diagnostics.Append cfg.Params.ElementsAs.1 }

/-- ASCII upper case of a byte. -/
def toUpperByte (b : Nat) : Nat := if 97 ≤ b ∧ b ≤ 122 then b - 32 else b

/-- ASCII white space: space, tab, line feed, vertical tab, form feed, carriage return. -/
def isSpaceByte (b : Nat) : Bool := decide (b = 32 ∨ (9 ≤ b ∧ b ≤ 13))

/-- A string without its leading white space. -/
def trimLeading : GoString → GoString
  | [] => []
  | b :: rest => if isSpaceByte b then trimLeading rest else b :: rest

/-- The first six bytes equal "SELECT" when letter case is ignored. -/
def startsWithSelectAnyCase (q : GoString) : Bool :=
  decide ((q.take 6).map toUpperByte = lit "SELECT")

/-- The acceptance condition as the specification words it: after trimming leading white
space, the first six characters equal "SELECT" case-insensitively. -/
def specAllowed (q : GoString) : Bool := startsWithSelectAnyCase (trimLeading q)

/-- Digits of a decimal text read back as a number. -/
def decimalValue (s : GoString) : Nat := s.foldl (fun acc d => 10 * acc + (d - 48)) 0

/-- A signed decimal text read back as a number. -/
def signedValue : GoString → Int
  | 45 :: digits => -(decimalValue digits : Int)
  | digits => (decimalValue digits : Int)

/-! ## Sample collaborators -/

/-- A response without diagnostics and without state. -/
def freshResp : ReadResponse := ⟨[], none⟩

/-- A model with a database path and a query, `params` null and nothing computed. -/
def modelOf (dbPath query : String) : sqliteQueryModel :=
  ⟨TfString.value (lit dbPath), TfString.value (lit query), ⟨true, ([], [])⟩, none, TfString.null⟩

/-- A cursor over the columns `color` and `blobcol` with one row: NULL and the blob
x00ff (the query of the acceptance test `blobAndNull`). -/
def blobRows : rowIterator :=
  ⟨Except.ok [lit "color", lit "blobcol"],
    [Except.ok [AnyValue.nil, AnyValue.bytes [0x00, 0xFF]]], none, none⟩

/-- A handle that answers every query with `blobRows`. -/
def blobDB : dbRunner := ⟨fun _ _ => Except.ok blobRows, none⟩

/-- An opener that always succeeds with `blobDB`; maps are ranged over in reverse order and
`State.Set` reports nothing. -/
def blobEnv : Env := ⟨fun _ => Except.ok blobDB, List.reverse, fun _ => [], false⟩

/-- The same collaborators under a toolchain whose JSON encoder is backed by json/v2. -/
def blobEnvV2 : Env := { blobEnv with jsonV2 := true }

/-- The model of the acceptance test `blobAndNull`. -/
def blobModel : sqliteQueryModel :=
  modelOf "/tmp/any.db" "SELECT NULL as color, x\x2700ff\x27 as blobcol;"

/-! ## The cursor feed read apart from the loop -/

/-- The rows a cursor emits before its first failing `Scan` (all of them when none fails). -/
def okRows : List (Except GoError (List AnyValue)) → List (List AnyValue)
  | Except.ok written :: rest => written :: okRows rest
  | _ => []

/-- The error of the first failing `Scan` of a cursor, if any. -/
def firstScanError : List (Except GoError (List AnyValue)) → Option GoError
  | [] => none
  | Except.error err :: _ => some err
  | Except.ok _ :: rest => firstScanError rest

/-- The calls of the loop on a cursor with `n` columns. -/
def scanCalls (n : Nat) : List (Except GoError (List AnyValue)) → List Call
  | [] => [Call.Next false]
  | Except.error _ :: _ => [Call.Next true, Call.Scan n]
  | Except.ok _ :: rest => Call.Next true :: Call.Scan n :: scanCalls n rest

/-- The normalization of one emitted row under the column list. -/
def normalizeRow (cols : List GoString) (written : List AnyValue) : GoMap :=
  makeRow cols (scanInto cols.length written)

/-- The model after source lines 216-217: `rows` and `result_json` set from `out`. -/
def withResult (env : Env) (cfg : sqliteQueryModel) (out : List GoMap) : sqliteQueryModel :=
  { cfg with Rows := some out, ResultJSON := TfString.value (Marshal env.jsonV2 out) }

/-- The invocation runs through every stage: the opener answers with the handle `db`, the
query passes the check of line 154, `QueryContext` answers with the cursor `rows`,
`Columns` answers with `cols`, no `Scan` fails and `Err` is nil after the loop. -/
def runsThrough (env : Env) (cfg : sqliteQueryModel) (db : dbRunner) (rows : rowIterator)
    (cols : List GoString) : Prop :=
  env.newSQLiteDB (dsnOf cfg.DBPath.ValueString) = Except.ok db ∧
    notSelect cfg.Query.ValueString = false ∧
    db.QueryContext cfg.Query.ValueString (boundArgs env cfg) = Except.ok rows ∧
    rows.Columns = Except.ok cols ∧
    firstScanError rows.feed = none ∧
    rows.Err = none

/-- The calls of an invocation that runs through every stage. -/
def fullCalls (env : Env) (cfg : sqliteQueryModel) (db : dbRunner) (rows : rowIterator)
    (cols : List GoString) : List Call :=
  Call.newSQLiteDB (dsnOf cfg.DBPath.ValueString) ::
    Call.QueryContext cfg.Query.ValueString (boundArgs env cfg) ::
    Call.Columns ::
    (scanCalls cols.length rows.feed ++
      [Call.Err, Call.StateSet, Call.rowsClose rows.Close, Call.dbClose db.Close])

/-- One row of the table `fish`: name, color and count. -/
def fishRow (name color : String) (count : Int) : Except GoError (List AnyValue) :=
  Except.ok [AnyValue.str (lit name), AnyValue.str (lit color), AnyValue.int64 count]

/-- A cursor over `name`, `color`, `count` emitting seven rows of the table `fish` in the
order of `ORDER BY count DESC, name ASC`, star fish first and red fish last as the
acceptance test `basic` expects (the cells of the rows in between are sample data). -/
def fishRows : rowIterator :=
  ⟨Except.ok [lit "name", lit "color", lit "count"],
    [fishRow "star fish" "yellow" 9, fishRow "new fish" "green" 6, fishRow "old fish" "grey" 5,
      fishRow "black fish" "black" 4, fishRow "blue fish" "blue" 3, fishRow "two fish" "pink" 2,
      fishRow "red fish" "red" 1],
    none, none⟩

/-- A handle that answers every query with `fishRows`. -/
def fishDB : dbRunner := ⟨fun _ _ => Except.ok fishRows, none⟩

/-- An opener that always succeeds with `fishDB`. -/
def fishEnv : Env := ⟨fun _ => Except.ok fishDB, List.reverse, fun _ => [], false⟩

/-- The query of the acceptance test `basic`. -/
def fishModel : sqliteQueryModel :=
  modelOf "/tmp/drseuss.db" "SELECT name, color, count\nFROM fish\nORDER BY count DESC, name ASC;\n"

/-- The conversion of a non-null `params` reports an error, so that the invocation returns
at source line 137. -/
def paramsFail (cfg : sqliteQueryModel) : Bool :=
  !cfg.Params.IsNull && Diagnostics.HasError cfg.Params.ElementsAs.1

/-- Some stage of the invocation fails: the opener returns an error, the check of line 154
refuses the query, `QueryContext` fails, `Columns` fails, `Scan` fails on some row, or `Err`
is not nil after the loop. -/
def stageFails (env : Env) (cfg : sqliteQueryModel) : Bool :=
  match env.newSQLiteDB (dsnOf cfg.DBPath.ValueString) with
  | Except.error _ => true
  | Except.ok db =>
    notSelect cfg.Query.ValueString ||
      match db.QueryContext cfg.Query.ValueString (boundArgs env cfg) with
      | Except.error _ => true
      | Except.ok rows =>
        match rows.Columns with
        | Except.error _ => true
        | Except.ok _ => rows.feed.any (fun r => !r.toBool) || rows.Err.isSome

/-- The invocation failed with one error diagnostic of the given summary and detail: the
diagnostic is the only one added, the model is as it was, and the state was not set. -/
def failedWith (cfg : sqliteQueryModel) (resp : ReadResponse) (out : Outcome)
    (summary detail : String) : Prop :=
  out.resp.Diagnostics = (boundResp cfg resp).Diagnostics ++ [⟨Severity.error, summary, detail⟩] ∧
    out.cfg = cfg ∧ out.resp.State = resp.State ∧ Call.StateSet ∉ out.calls

/-- A cursor as the stub of the unit tests builds it: the columns (`none` makes `Columns`
fail with "boom columns"), the answers of `Next`, the error of `Scan` (a successful `Scan`
writes "x" through every pointer) and the answer of `Err`. -/
def stubRows (cols : Option (List GoString)) (next : List Bool) (scanErr err : Option GoError) :
    rowIterator :=
  ⟨match cols with
    | none => Except.error "boom columns"
    | some c => Except.ok c,
    (next.takeWhile id).map (fun _ =>
      match scanErr with
      | some e => Except.error e
      | none => Except.ok (List.replicate (cols.getD []).length (AnyValue.str (lit "x")))),
    err, none⟩

/-- The environment `withStubDB` installs: the opener answers with a stub handle whose
`QueryContext` answers with the given cursor. -/
def stubEnv (rows : rowIterator) : Env :=
  ⟨fun _ => Except.ok ⟨fun _ _ => Except.ok rows, none⟩, List.reverse, fun _ => [], false⟩

/-- The environment of the unit test `TestRead_openError`. -/
def openErrorEnv : Env := ⟨fun _ => Except.error "open boom", List.reverse, fun _ => [], false⟩

/-- The model of the acceptance test `withParams`: the params map holds color = "red". -/
def redModel : sqliteQueryModel :=
  ⟨TfString.value (lit "/tmp/drseuss.db"),
    TfString.value (lit "SELECT name, color, count\nFROM fish\nWHERE color = :color\n"),
    ⟨false, ([], [(lit "color", lit "red")])⟩, none, TfString.null⟩

/-- The same collaborators, except that closing the handle answers `dbErr` and closing the
cursor answers `rowsErr`. -/
def withCloseErrors (env : Env) (dbErr rowsErr : Option GoError) : Env :=
  { env with
    newSQLiteDB := fun dsn =>
      match env.newSQLiteDB dsn with
      | Except.error e => Except.error e
      | Except.ok db =>
        Except.ok
          ⟨fun q a =>
            match db.QueryContext q a with
            | Except.error e => Except.error e
            | Except.ok rows => Except.ok { rows with Close := rowsErr },
            dbErr⟩ }

/-! ## Decoding a JSON array of objects with string values -/

/-- UTF-8 encoding of a rune (`utf8.EncodeRune`); surrogates and runes out of range are
written as U+FFFD. -/
def EncodeRune (r : Nat) : GoString :=
  if r < 0x80 then [r]
  else if r < 0x800 then [0xC0 + r / 64, 0x80 + r % 64]
  else if (0xD800 ≤ r ∧ r < 0xE000) ∨ 0x10FFFF < r then [0xEF, 0xBF, 0xBD]
  else if r < 0x10000 then [0xE0 + r / 4096, 0x80 + r / 64 % 64, 0x80 + r % 64]
  else [0xF0 + r / 262144, 0x80 + r / 4096 % 64, 0x80 + r / 64 % 64, 0x80 + r % 64]

/-- Value of a hexadecimal digit. -/
def hexVal (c : Nat) : Option Nat :=
  if 48 ≤ c ∧ c ≤ 57 then some (c - 48)
  else if 97 ≤ c ∧ c ≤ 102 then some (c - 87)
  else if 65 ≤ c ∧ c ≤ 70 then some (c - 55)
  else none

/-- Value of four hexadecimal digits. -/
def hex4 (a b c d : Nat) : Option Nat :=
  match hexVal a, hexVal b, hexVal c, hexVal d with
  | some x, some y, some z, some w => some (x * 4096 + y * 256 + z * 16 + w)
  | _, _, _, _ => none

/-- The byte a two-character escape stands for. -/
def simpleEscape (e : Nat) : Option Nat :=
  if e = 0x22 ∨ e = 0x5C ∨ e = 0x2F then some e
  else if e = 0x62 then some 0x08
  else if e = 0x66 then some 0x0C
  else if e = 0x6E then some 0x0A
  else if e = 0x72 then some 0x0D
  else if e = 0x74 then some 0x09
  else none

/-- Put decoded bytes in front of what the rest of the string decodes to. -/
def prepend (pre : GoString) : Option (GoString × GoString) → Option (GoString × GoString)
  | some (s, rest) => some (pre ++ s, rest)
  | none => none

/-- A low surrogate escape at the start of the text, if there is one. -/
def lowSurrogate (s : GoString) : Option Nat :=
  match s with
  | b1 :: b2 :: g1 :: g2 :: g3 :: g4 :: _ =>
    if b1 = 0x5C ∧ b2 = 0x75 then
      match hex4 g1 g2 g3 g4 with
      | some lo => if 0xDC00 ≤ lo ∧ lo < 0xE000 then some lo else none
      | none => none
    else none
  | _ => none

/-- What an escape stands for, given the text after its backslash: the decoded bytes and
the number of bytes of text the escape takes after the backslash.  A pair of surrogate
escapes gives one rune, a lone surrogate gives U+FFFD. -/
def decodeEscape (rest : GoString) : Option (GoString × Nat) :=
  match rest with
  | [] => none
  | e :: rest1 =>
    if e = 0x75 then
      match rest1 with
      | h1 :: h2 :: h3 :: h4 :: rest2 =>
        match hex4 h1 h2 h3 h4 with
        | none => none
        | some rr =>
          if 0xD800 ≤ rr ∧ rr < 0xDC00 then
            match lowSurrogate rest2 with
            | some lo =>
              some (EncodeRune ((rr - 0xD800) * 1024 + (lo - 0xDC00) + 0x10000), 11)
            | none => some (EncodeRune RuneError, 5)
          else some (EncodeRune rr, 5)
      | _ => none
    else
      match simpleEscape e with
      | some b => some ([b], 1)
      | none => none

/-- The characters of a JSON string after its opening quote: the decoded bytes and the text
after the closing quote.  Escapes are resolved, bytes from 0x20 on are taken as they are,
and a control byte or a missing closing quote is an error.  The first argument bounds the
number of characters. -/
def decodeChars : Nat → GoString → Option (GoString × GoString)
  | 0, _ => none
  | _ + 1, [] => none
  | fuel + 1, c :: rest =>
    if c = 0x22 then some ([], rest)
    else if c = 0x5C then
      match decodeEscape rest with
      | none => none
      | some (bytes, k) => prepend bytes (decodeChars fuel (rest.drop k))
    else if c < 0x20 then none
    else prepend [c] (decodeChars fuel rest)

/-- Text without its leading JSON white space. -/
def skipSpace : GoString → GoString
  | [] => []
  | c :: rest =>
    if c = 0x20 ∨ c = 0x09 ∨ c = 0x0A ∨ c = 0x0D then skipSpace rest else c :: rest

/-- A JSON string: the decoded bytes and the text after it. -/
def decodeString (s : GoString) : Option (GoString × GoString) :=
  match skipSpace s with
  | [] => none
  | c :: rest => if c = 0x22 then decodeChars rest.length rest else none

/-- One member of an object, a string key, a colon and a string value. -/
def decodeMember (s : GoString) : Option ((GoString × GoString) × GoString) :=
  match decodeString s with
  | none => none
  | some (k, r1) =>
    match skipSpace r1 with
    | [] => none
    | c :: r2 =>
      if c = 0x3A then
        match decodeString r2 with
        | none => none
        | some (v, r3) => some ((k, v), r3)
      else none

/-- The members of an object after the first one, up to the closing brace.  The first
argument bounds the number of members. -/
def decodeMembersTail : Nat → GoString → Option (List (GoString × GoString) × GoString)
  | 0, _ => none
  | fuel + 1, s =>
    match skipSpace s with
    | [] => none
    | c :: r =>
      if c = 0x7D then some ([], r)
      else if c = 0x2C then
        match decodeMember r with
        | none => none
        | some (m, r1) =>
          match decodeMembersTail fuel r1 with
          | none => none
          | some (ms, r2) => some (m :: ms, r2)
      else none

/-- An object whose values are strings: its members in text order and the text after it. -/
def decodeObject (fuel : Nat) (s : GoString) :
    Option (List (GoString × GoString) × GoString) :=
  match skipSpace s with
  | [] => none
  | c :: r =>
    if c = 0x7B then
      match skipSpace r with
      | [] => none
      | c1 :: r1 =>
        if c1 = 0x7D then some ([], r1)
        else
          match decodeMember (c1 :: r1) with
          | none => none
          | some (m, r2) =>
            match decodeMembersTail fuel r2 with
            | none => none
            | some (ms, r3) => some (m :: ms, r3)
    else none

/-- The elements of an array after the first one, up to the closing bracket. -/
def decodeElementsTail : Nat → GoString →
    Option (List (List (GoString × GoString)) × GoString)
  | 0, _ => none
  | fuel + 1, s =>
    match skipSpace s with
    | [] => none
    | c :: r =>
      if c = 0x5D then some ([], r)
      else if c = 0x2C then
        match decodeObject r.length r with
        | none => none
        | some (o, r1) =>
          match decodeElementsTail fuel r1 with
          | none => none
          | some (os, r2) => some (o :: os, r2)
      else none

/-- An array of objects whose values are strings. -/
def decodeArray (s : GoString) : Option (List (List (GoString × GoString)) × GoString) :=
  match skipSpace s with
  | [] => none
  | c :: r =>
    if c = 0x5B then
      match skipSpace r with
      | [] => none
      | c1 :: r1 =>
        if c1 = 0x5D then some ([], r1)
        else
          match decodeObject (c1 :: r1).length (c1 :: r1) with
          | none => none
          | some (o, r2) =>
            match decodeElementsTail r2.length r2 with
            | none => none
            | some (os, r3) => some (o :: os, r3)
    else none

/-- The map holding the members of a decoded object; of two members with one key the
later one stays. -/
def objectToMap (members : List (GoString × GoString)) : GoMap :=
  members.foldl (fun m e => GoMap.set m e.1 e.2) []

/-- Decoding a JSON text (grammar of RFC 8259) as an array of objects with string values,
each object becoming a map: `none` when the text is not of that shape. -/
def Unmarshal (text : GoString) : Option (List GoMap) :=
  match decodeArray text with
  | none => none
  | some (objects, rest) =>
    if skipSpace rest = [] then some (objects.map objectToMap) else none

/-- The loop of `utf8.ValidString`; the first argument bounds the number of runes. -/
def validLoop : Nat → GoString → Bool
  | 0, s => s.isEmpty
  | _ + 1, [] => true
  | fuel + 1, b :: rest =>
    match DecodeRuneInString (b :: rest) with
    | (c, size) =>
      if c = RuneError ∧ size = 1 then false else validLoop fuel (rest.drop (size - 1))

/-- The string is valid UTF-8 (`utf8.ValidString`). -/
def ValidString (s : GoString) : Bool := validLoop s.length s

/-- Two lists of maps agree field for field: they have the same length, and at every
position the two maps have the same keys with the same values. -/
def sameRows (a b : List GoMap) : Prop :=
  a.length = b.length ∧
    ∀ i (k : GoString), (a.getD i []).get? k = (b.getD i []).get? k

/-- Every key and every value of every row is valid UTF-8. -/
def rowsValid (rows : List GoMap) : Prop :=
  ∀ row ∈ rows, ∀ e ∈ row, ValidString e.1 = true ∧ ValidString e.2 = true

/-! ## Facts about diagnostics -/

theorem hasError_append (d m : Diagnostics) :
    Diagnostics.HasError (Diagnostics.Append d m) = (Diagnostics.HasError d || Diagnostics.HasError m) := by
  induction m generalizing d with
  | nil => simp [Diagnostics.Append, Diagnostics.HasError]
  | cons x xs ih =>
    have h := ih (if x ∈ d then d else d ++ [x])
    simp only [Diagnostics.Append, List.foldl_cons] at h ⊢
    rw [h]
    by_cases hx : x ∈ d
    · simp only [hx, if_true, Diagnostics.HasError, List.any_cons]
      by_cases hs : x.severity = Severity.error
      · have : d.any (fun d => decide (d.severity = Severity.error)) = true :=
          List.any_eq_true.mpr ⟨x, hx, by simp [hs]⟩
        simp [this, hs]
      · simp [hs]
    · simp only [hx, if_false, Diagnostics.HasError, List.any_append, List.any_cons, List.any_nil,
        Bool.or_false, Bool.or_assoc]

theorem addError_eq (d : Diagnostics) (s t : String) (h : Diagnostics.HasError d = false) :
    Diagnostics.AddError d s t = d ++ [⟨Severity.error, s, t⟩] := by
  have hn : (⟨Severity.error, s, t⟩ : Diagnostic) ∉ d := by
    intro hmem
    have : Diagnostics.HasError d = true := List.any_eq_true.mpr ⟨_, hmem, by simp⟩
    rw [h] at this; exact Bool.noConfusion this
  simp [Diagnostics.AddError, Diagnostics.Append, hn]

theorem errorCount_zero (d : Diagnostics) (h : Diagnostics.HasError d = false) :
    Diagnostics.errorCount d = 0 := by
  simp only [Diagnostics.errorCount, List.countP_eq_zero]
  intro x hx hs
  have : Diagnostics.HasError d = true := List.any_eq_true.mpr ⟨x, hx, hs⟩
  rw [h] at this; exact Bool.noConfusion this

theorem bindParams_ok (env : Env) (cfg : sqliteQueryModel) (resp : ReadResponse)
    (h : entryOK cfg resp = true) :
    bindParams env cfg resp = Except.ok (boundArgs env cfg, boundResp cfg resp) ∧
      Diagnostics.HasError (boundResp cfg resp).Diagnostics = false := by
  simp only [entryOK, Bool.and_eq_true, Bool.not_eq_true', Bool.or_eq_true] at h
  obtain ⟨h1, h2⟩ := h
  by_cases hn : cfg.Params.IsNull = true
  · simp [bindParams, boundArgs, boundResp, hn, h1]
  · have hn2 : cfg.Params.IsNull = false := by simpa using hn
    have h3 : Diagnostics.HasError cfg.Params.ElementsAs.1 = false := by
      rcases h2 with h2 | h2
      · rw [hn2] at h2; exact Bool.noConfusion h2
      · exact h2
    simp [bindParams, boundArgs, boundResp, hn2, hasError_append, h1, h3]

theorem not_mem_of_noError (d : Diagnostics) (e : Diagnostic)
    (h : Diagnostics.HasError d = false) (he : e.severity = Severity.error) : e ∉ d := by
  intro hmem
  have : Diagnostics.HasError d = true := List.any_eq_true.mpr ⟨e, hmem, by simp [he]⟩
  rw [h] at this; exact Bool.noConfusion this

theorem addError_diags (resp : ReadResponse) (s t : String)
    (h : Diagnostics.HasError resp.Diagnostics = false) :
    (addError resp s t).Diagnostics = resp.Diagnostics ++ [⟨Severity.error, s, t⟩] ∧
      (addError resp s t).State = resp.State := by
  simp [addError, addError_eq _ _ _ h]

/-! ## Facts about the stages of readWithModel -/

theorem readWithModel_opened (env : Env) (cfg : sqliteQueryModel) (resp : ReadResponse)
    (db : dbRunner) (hentry : entryOK cfg resp = true)
    (hopen : env.newSQLiteDB (dsnOf cfg.DBPath.ValueString) = Except.ok db) :
    readWithModel env cfg resp =
      ⟨(runQuery env cfg (boundResp cfg resp) db cfg.Query.ValueString (boundArgs env cfg)).cfg,
        (runQuery env cfg (boundResp cfg resp) db cfg.Query.ValueString (boundArgs env cfg)).resp,
        Call.newSQLiteDB (dsnOf cfg.DBPath.ValueString) ::
          ((runQuery env cfg (boundResp cfg resp) db cfg.Query.ValueString
            (boundArgs env cfg)).calls ++ [Call.dbClose db.Close])⟩ := by
  simp only [readWithModel, (bindParams_ok env cfg resp hentry).1, hopen]

theorem readWithModel_openFailed (env : Env) (cfg : sqliteQueryModel) (resp : ReadResponse)
    (err : GoError) (hentry : entryOK cfg resp = true)
    (hopen : env.newSQLiteDB (dsnOf cfg.DBPath.ValueString) = Except.error err) :
    readWithModel env cfg resp =
      ⟨cfg, addError (boundResp cfg resp) "open sqlite db failed" err,
        [Call.newSQLiteDB (dsnOf cfg.DBPath.ValueString)]⟩ := by
  simp only [readWithModel, (bindParams_ok env cfg resp hentry).1, hopen]

theorem notSelect_eq_false (q : GoString) :
    notSelect q = false ↔ (q.take 6 = lit "SELECT" ∨ q.take 6 = lit "select") := by
  have hS : (lit "SELECT").length = 6 := by decide
  have hs : (lit "select").length = 6 := by decide
  constructor
  · intro h
    simp only [notSelect, Bool.or_eq_false_iff, Bool.and_eq_false_iff, decide_eq_false_iff_not,
      not_not] at h
    exact h.2
  · intro h
    have hlen : ¬ q.length < 6 := by
      intro hlt
      rcases h with h | h
      · have := congrArg List.length h
        rw [List.length_take, hS] at this; omega
      · have := congrArg List.length h
        rw [List.length_take, hs] at this; omega
    simp only [notSelect, Bool.or_eq_false_iff, Bool.and_eq_false_iff, decide_eq_false_iff_not,
      not_not]
    exact ⟨hlen, h⟩

theorem runQuery_refused (env : Env) (cfg : sqliteQueryModel) (resp : ReadResponse)
    (db : dbRunner) (q : GoString) (args : List NamedArg) (h : notSelect q = true) :
    runQuery env cfg resp db q args =
      ⟨cfg, addError resp "query must be SELECT" "Only read-only SELECT queries are allowed.",
        []⟩ := by
  simp [runQuery, h]

theorem runQuery_queryFailed (env : Env) (cfg : sqliteQueryModel) (resp : ReadResponse)
    (db : dbRunner) (q : GoString) (args : List NamedArg) (err : GoError)
    (h : notSelect q = false) (hq : db.QueryContext q args = Except.error err) :
    runQuery env cfg resp db q args =
      ⟨cfg, addError resp "query failed" err, [Call.QueryContext q args]⟩ := by
  simp [runQuery, h, hq]

theorem runQuery_queried (env : Env) (cfg : sqliteQueryModel) (resp : ReadResponse)
    (db : dbRunner) (q : GoString) (args : List NamedArg) (rows : rowIterator)
    (h : notSelect q = false) (hq : db.QueryContext q args = Except.ok rows) :
    runQuery env cfg resp db q args =
      ⟨(readRows env cfg resp rows).cfg, (readRows env cfg resp rows).resp,
        Call.QueryContext q args ::
          ((readRows env cfg resp rows).calls ++ [Call.rowsClose rows.Close])⟩ := by
  simp [runQuery, h, hq]

theorem scanRows_eq (cols : List GoString) (feed : List (Except GoError (List AnyValue)))
    (out : List GoMap) :
    scanRows cols feed out =
      ((match firstScanError feed with
        | some err => Except.error err
        | none => Except.ok (out ++ (okRows feed).map (normalizeRow cols))),
        scanCalls cols.length feed) := by
  induction feed generalizing out with
  | nil => simp [scanRows, firstScanError, okRows, scanCalls]
  | cons x rest ih =>
    cases x with
    | error err => simp [scanRows, firstScanError, scanCalls]
    | ok written =>
      simp only [scanRows, firstScanError, okRows, scanCalls, ih, List.map_cons, normalizeRow]
      cases firstScanError rest <;> simp

theorem readRows_columnsFailed (env : Env) (cfg : sqliteQueryModel) (resp : ReadResponse)
    (rows : rowIterator) (err : GoError) (h : rows.Columns = Except.error err) :
    readRows env cfg resp rows = ⟨cfg, addError resp "columns failed" err, [Call.Columns]⟩ := by
  simp [readRows, h]

theorem readRows_scanFailed (env : Env) (cfg : sqliteQueryModel) (resp : ReadResponse)
    (rows : rowIterator) (cols : List GoString) (err : GoError)
    (h : rows.Columns = Except.ok cols) (hs : firstScanError rows.feed = some err) :
    readRows env cfg resp rows =
      ⟨cfg, addError resp "scan failed" err, Call.Columns :: scanCalls cols.length rows.feed⟩ := by
  simp [readRows, h, scanRows_eq, hs]

theorem readRows_rowsErr (env : Env) (cfg : sqliteQueryModel) (resp : ReadResponse)
    (rows : rowIterator) (cols : List GoString) (err : GoError)
    (h : rows.Columns = Except.ok cols) (hs : firstScanError rows.feed = none)
    (he : rows.Err = some err) :
    readRows env cfg resp rows =
      ⟨cfg, addError resp "row iteration failed" err,
        Call.Columns :: (scanCalls cols.length rows.feed ++ [Call.Err])⟩ := by
  simp [readRows, h, scanRows_eq, hs, he]

theorem readRows_success (env : Env) (cfg : sqliteQueryModel) (resp : ReadResponse)
    (rows : rowIterator) (cols : List GoString)
    (h : rows.Columns = Except.ok cols) (hs : firstScanError rows.feed = none)
    (he : rows.Err = none) :
    readRows env cfg resp rows =
      ⟨withResult env cfg ((okRows rows.feed).map (normalizeRow cols)),
        { Diagnostics := resp.Diagnostics.Append
            (env.stateSet (withResult env cfg ((okRows rows.feed).map (normalizeRow cols)))),
          State :=
            if Diagnostics.HasError
                (env.stateSet (withResult env cfg ((okRows rows.feed).map (normalizeRow cols))))
            then resp.State
            else some (withResult env cfg ((okRows rows.feed).map (normalizeRow cols))) },
        Call.Columns :: (scanCalls cols.length rows.feed ++ [Call.Err, Call.StateSet])⟩ := by
  simp [readRows, h, scanRows_eq, hs, he, withResult]

theorem mem_scanCalls (n : Nat) (feed : List (Except GoError (List AnyValue))) (c : Call)
    (h : c ∈ scanCalls n feed) : c = Call.Next true ∨ c = Call.Scan n ∨ c = Call.Next false := by
  induction feed with
  | nil => simp only [scanCalls, List.mem_singleton] at h; exact Or.inr (Or.inr h)
  | cons x rest ih =>
    cases x with
    | error e =>
      simp only [scanCalls, List.mem_cons, List.mem_singleton, List.not_mem_nil, or_false] at h
      rcases h with h | h
      · exact Or.inl h
      · exact Or.inr (Or.inl h)
    | ok w =>
      simp only [scanCalls, List.mem_cons] at h
      rcases h with h | h | h
      · exact Or.inl h
      · exact Or.inr (Or.inl h)
      · exact ih h

theorem readRows_cases (env : Env) (cfg : sqliteQueryModel) (resp : ReadResponse)
    (rows : rowIterator) (hresp : Diagnostics.HasError resp.Diagnostics = false) :
    (∃ s e, (s = "columns failed" ∨ s = "scan failed" ∨ s = "row iteration failed") ∧
        (readRows env cfg resp rows).resp.Diagnostics =
          resp.Diagnostics ++ [⟨Severity.error, s, e⟩] ∧
        (readRows env cfg resp rows).cfg = cfg ∧
        (readRows env cfg resp rows).resp.State = resp.State ∧
        Call.StateSet ∉ (readRows env cfg resp rows).calls) ∨
      (∃ cols, rows.Columns = Except.ok cols ∧ firstScanError rows.feed = none ∧
        rows.Err = none) := by
  cases hc : rows.Columns with
  | error err =>
    left
    refine ⟨"columns failed", err, Or.inl rfl, ?_⟩
    rw [readRows_columnsFailed env cfg resp rows err hc]
    simp [addError_diags resp _ _ hresp]
  | ok cols =>
    cases hs : firstScanError rows.feed with
    | some err =>
      left
      refine ⟨"scan failed", err, Or.inr (Or.inl rfl), ?_⟩
      rw [readRows_scanFailed env cfg resp rows cols err hc hs]
      simp only [addError_diags resp _ _ hresp, true_and]
      intro hmem
      rcases List.mem_cons.mp hmem with h | h
      · exact Call.noConfusion h
      · rcases mem_scanCalls _ _ _ h with h | h | h <;> exact Call.noConfusion h
    | none =>
      cases he : rows.Err with
      | some err =>
        left
        refine ⟨"row iteration failed", err, Or.inr (Or.inr rfl), ?_⟩
        rw [readRows_rowsErr env cfg resp rows cols err hc hs he]
        simp only [addError_diags resp _ _ hresp, true_and]
        intro hmem
        rcases List.mem_cons.mp hmem with h | h
        · exact Call.noConfusion h
        · rcases List.mem_append.mp h with h | h
          · rcases mem_scanCalls _ _ _ h with h | h | h <;> exact Call.noConfusion h
          · rw [List.mem_singleton] at h; exact Call.noConfusion h
      | none => right; exact ⟨cols, rfl, rfl, rfl⟩

/-! ## C1: the SELECT check -/

theorem lit_SELECT : lit "SELECT" = [83, 69, 76, 69, 67, 84] := by decide

theorem lit_select : lit "select" = [115, 101, 108, 101, 99, 116] := by decide

/-- C1 (counterexample): the claim lets a query pass whenever its first six characters
after trimming leading white space are "SELECT" in any letter case.  The queries
"Select 1" and " SELECT 1" meet that condition, yet `readWithModel` refuses both with the
error "query must be SELECT". -/
theorem select_guard_refuses_mixed_case :
    ¬ (selectError ∉
          (readWithModel blobEnv (modelOf "/tmp/any.db" "Select 1") freshResp).resp.Diagnostics ↔
        specAllowed (lit "Select 1") = true) ∧
      ¬ (selectError ∉
          (readWithModel blobEnv (modelOf "/tmp/any.db" " SELECT 1") freshResp).resp.Diagnostics ↔
        specAllowed (lit " SELECT 1") = true) := by
  decide

/-- C1 (amended): when the invocation reaches the check (no error on entry, opener
succeeded, `State.Set` reports no error), `readWithModel` passes the SELECT check, that is
adds no "query must be SELECT" error and goes on to call `QueryContext`, if and only if the
first six bytes of the query as given (not trimmed) are exactly "SELECT" or exactly
"select".  Every query that passes also meets the condition of the specification. -/
theorem select_guard_exact (env : Env) (cfg : sqliteQueryModel) (resp : ReadResponse)
    (db : dbRunner) (hentry : entryOK cfg resp = true)
    (hopen : env.newSQLiteDB (dsnOf cfg.DBPath.ValueString) = Except.ok db)
    (hset : ∀ m, Diagnostics.HasError (env.stateSet m) = false) :
    (selectError ∉ (readWithModel env cfg resp).resp.Diagnostics ↔
        (cfg.Query.ValueString.take 6 = lit "SELECT" ∨
          cfg.Query.ValueString.take 6 = lit "select")) ∧
      (Call.QueryContext cfg.Query.ValueString (boundArgs env cfg) ∈
          (readWithModel env cfg resp).calls ↔
        (cfg.Query.ValueString.take 6 = lit "SELECT" ∨
          cfg.Query.ValueString.take 6 = lit "select")) ∧
      ((cfg.Query.ValueString.take 6 = lit "SELECT" ∨
          cfg.Query.ValueString.take 6 = lit "select") →
        specAllowed cfg.Query.ValueString = true) := by
  have hb := (bindParams_ok env cfg resp hentry).2
  rw [readWithModel_opened env cfg resp db hentry hopen, ← notSelect_eq_false]
  cases hns : notSelect cfg.Query.ValueString with
  | true =>
    rw [runQuery_refused env cfg _ db _ _ hns]
    simp only [(addError_diags _ _ _ hb).1, List.nil_append, List.mem_cons, List.mem_singleton,
      List.not_mem_nil, or_false]
    refine ⟨?_, ?_, ?_⟩
    · constructor
      · intro h; exact absurd (List.mem_append_right _ (List.mem_singleton.mpr rfl)) h
      · intro h; exact Bool.noConfusion h
    · constructor
      · intro h
        rcases h with h | h <;> exact Call.noConfusion h
      · intro h; exact Bool.noConfusion h
    · intro h; exact Bool.noConfusion h
  | false =>
    have hq6 := (notSelect_eq_false _).mp hns
    refine ⟨?_, ?_, ?_⟩
    · refine ⟨fun _ => rfl, fun _ => ?_⟩
      cases hq : db.QueryContext cfg.Query.ValueString (boundArgs env cfg) with
      | error err =>
        rw [runQuery_queryFailed env cfg _ db _ _ err hns hq]
        simp only [(addError_diags _ _ _ hb).1, List.mem_append, List.mem_singleton, not_or]
        exact ⟨not_mem_of_noError _ _ hb rfl, by simp [selectError]⟩
      | ok rows =>
        rw [runQuery_queried env cfg _ db _ _ rows hns hq]
        rcases readRows_cases env cfg (boundResp cfg resp) rows hb with
          ⟨s, e, hs, hd, -, -, -⟩ | ⟨cols, hc, hs, he⟩
        · simp only [hd, List.mem_append, List.mem_singleton, not_or]
          refine ⟨not_mem_of_noError _ _ hb rfl, ?_⟩
          rcases hs with hs | hs | hs <;> subst hs <;> simp [selectError]
        · rw [readRows_success env cfg _ rows cols hc hs he]
          apply not_mem_of_noError _ _ _ rfl
          simp only [hasError_append, hb, hset, Bool.or_false]
    · refine ⟨fun _ => rfl, fun _ => ?_⟩
      cases hq : db.QueryContext cfg.Query.ValueString (boundArgs env cfg) with
      | error err =>
        rw [runQuery_queryFailed env cfg _ db _ _ err hns hq]
        simp
      | ok rows =>
        rw [runQuery_queried env cfg _ db _ _ rows hns hq]
        simp
    · intro _
      have h6 : ∀ q : GoString, q.take 6 = lit "SELECT" ∨ q.take 6 = lit "select" →
          specAllowed q = true := by
        intro q hq
        have hne : q ≠ [] := by
          rintro rfl
          rcases hq with h | h <;> exact absurd h (by decide)
        obtain ⟨b, rest, rfl⟩ := List.exists_cons_of_ne_nil hne
        have hb : b = 83 ∨ b = 115 := by
          rcases hq with h | h
          · left; rw [lit_SELECT] at h; simpa using congrArg List.head? h
          · right; rw [lit_select] at h; simpa using congrArg List.head? h
        have htrim : trimLeading (b :: rest) = b :: rest := by
          rcases hb with rfl | rfl <;> simp [trimLeading, isSpaceByte]
        simp only [specAllowed, htrim, startsWithSelectAnyCase, decide_eq_true_eq]
        rcases hq with h | h <;> rw [h] <;> decide
      exact h6 _ hq6

/-- C1 (witness): the amended statement at the query "SELECT 1" on the sample database. -/
theorem select_guard_exact_witness :
    entryOK (modelOf "/tmp/any.db" "SELECT 1") freshResp = true ∧
      selectError ∉
        (readWithModel blobEnv (modelOf "/tmp/any.db" "SELECT 1") freshResp).resp.Diagnostics :=
  ⟨by decide,
    ((select_guard_exact blobEnv (modelOf "/tmp/any.db" "SELECT 1") freshResp blobDB
      (by decide) rfl (fun _ => rfl)).1).mpr (Or.inl (by decide))⟩

/-! ## C2: queries that are not SELECT -/

theorem boundResp_state (cfg : sqliteQueryModel) (resp : ReadResponse) :
    (boundResp cfg resp).State = resp.State := by
  unfold boundResp
  split <;> rfl

theorem notSelect_of_not_anyCase (q : GoString)
    (hq : q.length < 6 ∨ startsWithSelectAnyCase q = false) : notSelect q = true := by
  cases hns : notSelect q with
  | true => rfl
  | false =>
    exfalso
    have h6 := (notSelect_eq_false q).mp hns
    rcases hq with hlen | hcase
    · rcases h6 with h | h
      · have := congrArg List.length h
        rw [List.length_take, lit_SELECT] at this
        simp only [List.length_cons, List.length_nil] at this
        omega
      · have := congrArg List.length h
        rw [List.length_take, lit_select] at this
        simp only [List.length_cons, List.length_nil] at this
        omega
    · simp only [startsWithSelectAnyCase, decide_eq_false_iff_not] at hcase
      rcases h6 with h | h <;> exact hcase (by rw [h]; decide)

/-- C2: for every query shorter than six bytes or whose first six bytes are not "SELECT"
in any letter case, and every opener that succeeds (on an invocation that reaches it),
`readWithModel` adds the error diagnostic "query must be SELECT" (and nothing else), makes
no `QueryContext` call (its only calls are the open and the close of the handle), leaves the
model with its `rows` and `result_json` as they were, and sets no state. -/
theorem nonselect_query_rejected (env : Env) (cfg : sqliteQueryModel) (resp : ReadResponse)
    (db : dbRunner) (hentry : entryOK cfg resp = true)
    (hopen : env.newSQLiteDB (dsnOf cfg.DBPath.ValueString) = Except.ok db)
    (hq : cfg.Query.ValueString.length < 6 ∨
      startsWithSelectAnyCase cfg.Query.ValueString = false) :
    selectError ∈ (readWithModel env cfg resp).resp.Diagnostics ∧
      (readWithModel env cfg resp).resp.Diagnostics =
        (boundResp cfg resp).Diagnostics ++ [selectError] ∧
      (∀ q args, Call.QueryContext q args ∉ (readWithModel env cfg resp).calls) ∧
      (readWithModel env cfg resp).calls =
        [Call.newSQLiteDB (dsnOf cfg.DBPath.ValueString), Call.dbClose db.Close] ∧
      (readWithModel env cfg resp).cfg = cfg ∧
      (readWithModel env cfg resp).cfg.Rows = cfg.Rows ∧
      (readWithModel env cfg resp).cfg.ResultJSON = cfg.ResultJSON ∧
      (readWithModel env cfg resp).resp.State = resp.State := by
  have hb := (bindParams_ok env cfg resp hentry).2
  have hns := notSelect_of_not_anyCase _ hq
  rw [readWithModel_opened env cfg resp db hentry hopen, runQuery_refused env cfg _ db _ _ hns]
  rw [(addError_diags _ _ _ hb).1, (addError_diags _ _ _ hb).2, boundResp_state]
  refine ⟨List.mem_append_right _ (List.mem_singleton.mpr rfl), rfl, ?_, rfl, rfl, rfl, rfl, rfl⟩
  intro q args hmem
  simp only [List.nil_append, List.mem_cons, List.mem_singleton, List.not_mem_nil,
    or_false] at hmem
  rcases hmem with h | h <;> exact Call.noConfusion h

/-- C2 (witness): the query of the acceptance test, "UPDATE fish SET count = 99;". -/
theorem nonselect_query_rejected_witness :
    entryOK (modelOf "/tmp/any.db" "UPDATE fish SET count = 99;") freshResp = true ∧
      startsWithSelectAnyCase (lit "UPDATE fish SET count = 99;") = false ∧
      (readWithModel blobEnv (modelOf "/tmp/any.db" "UPDATE fish SET count = 99;")
          freshResp).resp.Diagnostics = [selectError] ∧
      (readWithModel blobEnv (modelOf "/tmp/any.db" "UPDATE fish SET count = 99;")
          freshResp).cfg.Rows = none :=
  ⟨by decide, by decide,
    (nonselect_query_rejected blobEnv (modelOf "/tmp/any.db" "UPDATE fish SET count = 99;")
      freshResp blobDB (by decide) rfl (Or.inr (by decide))).2.1,
    (nonselect_query_rejected blobEnv (modelOf "/tmp/any.db" "UPDATE fish SET count = 99;")
      freshResp blobDB (by decide) rfl (Or.inr (by decide))).2.2.2.2.2.1⟩

/-! ## C3: null and generic cells -/

theorem decimalValue_snoc (ds : GoString) (d : Nat) :
    decimalValue (ds ++ [d]) = 10 * decimalValue ds + (d - 48) := by
  simp [decimalValue, List.foldl_append]

theorem formatBits_spec (fuel u : Nat) (acc : GoString) (h : u < fuel) :
    ∃ ds, formatBits fuel u acc = ds ++ acc ∧ decimalValue ds = u ∧ ds ≠ [] ∧
      ∀ d ∈ ds, 48 ≤ d ∧ d ≤ 57 := by
  induction fuel generalizing u acc with
  | zero => omega
  | succ fuel ih =>
    by_cases hu : u < 10
    · refine ⟨[48 + u], by simp [formatBits, hu], by simp [decimalValue], by simp, ?_⟩
      intro d hd
      rw [List.mem_singleton] at hd
      omega
    · obtain ⟨ds, h1, h2, -, h4⟩ := ih (u / 10) ((48 + u % 10) :: acc) (by omega)
      refine ⟨ds ++ [48 + u % 10], by simp [formatBits, hu, h1], ?_, by simp, ?_⟩
      · rw [decimalValue_snoc, h2]; omega
      · intro d hd
        rcases List.mem_append.mp hd with hd | hd
        · exact h4 d hd
        · rw [List.mem_singleton] at hd
          omega

theorem formatUint_spec (u : Nat) :
    decimalValue (FormatUint u) = u ∧ FormatUint u ≠ [] ∧
      ∀ d ∈ FormatUint u, 48 ≤ d ∧ d ≤ 57 := by
  obtain ⟨ds, h1, h2, h3, h4⟩ := formatBits_spec (u + 1) u [] (by omega)
  rw [List.append_nil] at h1
  rw [FormatUint, h1]
  exact ⟨h2, h3, h4⟩

theorem signedValue_formatInt (n : Int) : signedValue (FormatInt n) = n := by
  obtain ⟨h1, h2, h3⟩ := formatUint_spec n.natAbs
  by_cases hn : n < 0
  · simp only [FormatInt, hn, if_true, signedValue, h1]
    omega
  · simp only [FormatInt, hn, if_false]
    obtain ⟨d, rest, hds⟩ := List.exists_cons_of_ne_nil h2
    have hd : 48 ≤ d ∧ d ≤ 57 := h3 d (by rw [hds]; exact List.mem_cons_self _ _)
    have hval : signedValue (d :: rest) = (decimalValue (d :: rest) : Int) := by
      unfold signedValue
      split
      · rename_i heq
        have : d = 45 := by injection heq
        omega
      · rfl
    rw [hds] at h1 ⊢
    rw [hval, h1]
    omega

/-- C3: the cell normalizer of `readWithModel` maps nil to the empty string, and every value
that is neither nil nor a byte sequence to its default textual form: every `int64` n to its
decimal text, which reads back as n (the integer 1 becomes "1"); every string to itself;
the bools to "true" and "false"; every `float64` to the text of `strconv.FormatFloat` in
the format g with the shortest precision (1.5 becomes "1.5", 0.1 "0.1", 100 "100",
-2.5 "-2.5", a million "1e+06", 123456789 "1.23456789e+08", 0.0001 "0.0001",
0.00001 "1e-05", one third "0.3333333333333333", 0.1 + 0.2 "0.30000000000000004", 1 "1",
2^53 "9.007199254740992e+15", the float after 2^50, which lies halfway between two
decimals of 17 digits, "1.1258999068426242e+15", the least positive float "5e-324", the
greatest "1.7976931348623157e+308", the zeros "0" and "-0", the infinities "+Inf" and
"-Inf", a NaN "NaN"); every `time.Time` to
the text of its method `String` (23:00 UTC on 10 November 2009 becomes
"2009-11-10 23:00:00 +0000 UTC"; a time with a fraction of a second in a zone without
abbreviation prints the fraction without trailing zeros and the offset twice).  Only nil
and byte sequences are kept from the default form, which for them would be "<nil>" and
the decimal bytes in brackets.  Every cell value has exactly one normalized string, and
that string is what the row stores under the column. -/
theorem normalize_null_and_generic :
    normalizeCell AnyValue.nil = [] ∧
      (∀ n : Int, normalizeCell (AnyValue.int64 n) = FormatInt n ∧
        signedValue (normalizeCell (AnyValue.int64 n)) = n) ∧
      normalizeCell (AnyValue.int64 1) = lit "1" ∧
      normalizeCell (AnyValue.int64 (-42)) = lit "-42" ∧
      (∀ s : GoString, normalizeCell (AnyValue.str s) = s) ∧
      normalizeCell (AnyValue.bool true) = lit "true" ∧
      normalizeCell (AnyValue.bool false) = lit "false" ∧
      (∀ bits : Nat, normalizeCell (AnyValue.float64 bits) = FormatFloat bits) ∧
      normalizeCell (AnyValue.float64 0x3FF8000000000000) = lit "1.5" ∧
      normalizeCell (AnyValue.float64 0x3FB999999999999A) = lit "0.1" ∧
      normalizeCell (AnyValue.float64 0x4059000000000000) = lit "100" ∧
      normalizeCell (AnyValue.float64 0xC004000000000000) = lit "-2.5" ∧
      normalizeCell (AnyValue.float64 0x412E848000000000) = lit "1e+06" ∧
      normalizeCell (AnyValue.float64 0x419D6F3454000000) = lit "1.23456789e+08" ∧
      normalizeCell (AnyValue.float64 0x3F1A36E2EB1C432D) = lit "0.0001" ∧
      normalizeCell (AnyValue.float64 0x3EE4F8B588E368F1) = lit "1e-05" ∧
      normalizeCell (AnyValue.float64 0x3FD5555555555555) = lit "0.3333333333333333" ∧
      normalizeCell (AnyValue.float64 0x3FD3333333333334) = lit "0.30000000000000004" ∧
      normalizeCell (AnyValue.float64 0x3FF0000000000000) = lit "1" ∧
      normalizeCell (AnyValue.float64 0x4340000000000000) = lit "9.007199254740992e+15" ∧
      normalizeCell (AnyValue.float64 0x4310000000000001) = lit "1.1258999068426242e+15" ∧
      normalizeCell (AnyValue.float64 1) = lit "5e-324" ∧
      normalizeCell (AnyValue.float64 0x7FEFFFFFFFFFFFFF) = lit "1.7976931348623157e+308" ∧
      normalizeCell (AnyValue.float64 0) = lit "0" ∧
      normalizeCell (AnyValue.float64 0x8000000000000000) = lit "-0" ∧
      normalizeCell (AnyValue.float64 0x7FF0000000000000) = lit "+Inf" ∧
      normalizeCell (AnyValue.float64 0xFFF0000000000000) = lit "-Inf" ∧
      normalizeCell (AnyValue.float64 0x7FF8000000000001) = lit "NaN" ∧
      (∀ t : GoTime, normalizeCell (AnyValue.time t) = t.String) ∧
      normalizeCell (AnyValue.time ⟨2009, 11, 10, 23, 0, 0, 0, lit "UTC", 0⟩) =
        lit "2009-11-10 23:00:00 +0000 UTC" ∧
      normalizeCell (AnyValue.time ⟨2024, 2, 29, 1, 2, 3, 120000000, [], -12600⟩) =
        lit "2024-02-29 01:02:03.12 -0330 -0330" ∧
      Sprint AnyValue.nil = lit "<nil>" ∧
      Sprint (AnyValue.bytes [0x00, 0xFF]) = lit "[0 255]" ∧
      (∀ v : AnyValue, (v ≠ AnyValue.nil ∧ ∀ b, v ≠ AnyValue.bytes b) →
        normalizeCell v = Sprint v) ∧
      (∀ v : AnyValue, ∃! s, normalizeCell v = s) ∧
      (∀ (c : GoString) (v : AnyValue),
        GoMap.get? (normalizeRow [c] [v]) c = some (normalizeCell v)) := by
  refine ⟨rfl, fun n => ⟨rfl, signedValue_formatInt n⟩, by decide, by decide, fun _ => rfl,
    by decide, by decide, fun _ => rfl, by decide, by decide, by decide, by decide, by decide,
    by decide, by decide, by decide, by decide, by decide, by decide!, by decide!, by decide!,
    by decide!, by decide!, by decide, by decide, by decide, by decide, by decide,
    fun _ => rfl, by decide, by decide, by decide, by decide, ?_,
    fun v => ⟨normalizeCell v, rfl, fun _ h => h.symm⟩, ?_⟩
  · intro v hv
    cases v with
    | nil => exact absurd rfl hv.1
    | bytes b => exact absurd rfl (hv.2 b)
    | int64 n => rfl
    | float64 bits => rfl
    | str s => rfl
    | bool b => rfl
    | time t => rfl
  intro c v
  simp [normalizeRow, makeRow, scanInto, GoMap.set, GoMap.get?, List.lookup, List.range,
    List.range.loop]

/-! ## C4: binary cells -/

theorem bytes_cell_kept (c b : GoString) :
    normalizeCell (AnyValue.bytes b) = b ∧
      GoMap.get? (normalizeRow [c] [AnyValue.bytes b]) c = some b := by
  refine ⟨rfl, ?_⟩
  simp [normalizeRow, makeRow, scanInto, GoMap.set, GoMap.get?, List.lookup, List.range,
    List.range.loop, normalizeCell]

/-- C4 (the code at the failing input): on the query of the acceptance test `blobAndNull`,
whose blob cell holds the bytes 00 FF, `readWithModel` stores the cell in `rows` as the two
bytes 00 FF, under either toolchain.  The NUL byte is kept, but the byte FF, which is not
valid UTF-8, is kept too: the stored string is neither NUL followed by U+FFFD (00 EF BF BD),
which the claim and the comment of the test name, nor the bytes of the literal the test
compares with as they stand in the source file (00 C3 AF C2 BF C2 BD).  The JSON path of
the same invocation does substitute: the blob cell of `result_json` decodes to
00 EF BF BD. -/
theorem blob_invalid_byte_not_replaced :
    (readWithModel blobEnv blobModel freshResp).cfg.Rows =
        some [[(lit "color", []), (lit "blobcol", [0x00, 0xFF])]] ∧
      (readWithModel blobEnvV2 blobModel freshResp).cfg.Rows =
        some [[(lit "color", []), (lit "blobcol", [0x00, 0xFF])]] ∧
      normalizeCell (AnyValue.bytes [0x00, 0xFF]) = [0x00, 0xFF] ∧
      ValidString [0x00, 0xFF] = false ∧
      normalizeCell (AnyValue.bytes [0x00, 0xFF]) ≠ [0x00, 0xEF, 0xBF, 0xBD] ∧
      normalizeCell (AnyValue.bytes [0x00, 0xFF]) ≠ [0x00, 0xC3, 0xAF, 0xC2, 0xBF, 0xC2, 0xBD] ∧
      (Unmarshal (readWithModel blobEnv blobModel freshResp).cfg.ResultJSON.ValueString).map
          (fun decoded => (decoded.getD 0 []).get? (lit "blobcol")) =
        some (some [0x00, 0xEF, 0xBF, 0xBD]) ∧
      (Unmarshal (readWithModel blobEnvV2 blobModel freshResp).cfg.ResultJSON.ValueString).map
          (fun decoded => (decoded.getD 0 []).get? (lit "blobcol")) =
        some (some [0x00, 0xEF, 0xBF, 0xBD]) := by
  decide

/-! ## Facts about a full run and about row maps -/

theorem readWithModel_full (env : Env) (cfg : sqliteQueryModel) (resp : ReadResponse)
    (db : dbRunner) (rows : rowIterator) (cols : List GoString)
    (hentry : entryOK cfg resp = true) (hrun : runsThrough env cfg db rows cols) :
    readWithModel env cfg resp =
      ⟨withResult env cfg ((okRows rows.feed).map (normalizeRow cols)),
        { Diagnostics := (boundResp cfg resp).Diagnostics.Append
            (env.stateSet (withResult env cfg ((okRows rows.feed).map (normalizeRow cols)))),
          State :=
            if Diagnostics.HasError
                (env.stateSet (withResult env cfg ((okRows rows.feed).map (normalizeRow cols))))
            then resp.State
            else some (withResult env cfg ((okRows rows.feed).map (normalizeRow cols))) },
        fullCalls env cfg db rows cols⟩ := by
  obtain ⟨hopen, hns, hq, hc, hs, he⟩ := hrun
  rw [readWithModel_opened env cfg resp db hentry hopen,
    runQuery_queried env cfg _ db _ _ rows hns hq,
    readRows_success env cfg _ rows cols hc hs he, boundResp_state]
  simp [fullCalls]

theorem feed_all_ok (feed : List (Except GoError (List AnyValue)))
    (h : firstScanError feed = none) : feed = (okRows feed).map Except.ok := by
  induction feed with
  | nil => rfl
  | cons x rest ih =>
    cases x with
    | error e => simp [firstScanError] at h
    | ok w =>
      simp only [firstScanError] at h
      simp only [okRows, List.map_cons]
      rw [← ih h]

theorem count_next_scanCalls (n : Nat) (feed : List (Except GoError (List AnyValue)))
    (h : firstScanError feed = none) :
    (scanCalls n feed).count (Call.Next true) = (okRows feed).length := by
  induction feed with
  | nil => simp [scanCalls, okRows, List.count_cons]
  | cons x rest ih =>
    cases x with
    | error e => simp [firstScanError] at h
    | ok w =>
      simp only [firstScanError] at h
      simp [scanCalls, okRows, List.count_cons, ih h]

theorem keys_set (m : GoMap) (k v : GoString) :
    GoMap.keys (GoMap.set m k v) = if k ∈ GoMap.keys m then GoMap.keys m else GoMap.keys m ++ [k] := by
  induction m with
  | nil => simp [GoMap.set, GoMap.keys]
  | cons e rest ih =>
    obtain ⟨k0, v0⟩ := e
    by_cases h : k0 = k
    · subst h
      simp [GoMap.set, GoMap.keys]
    · have h2 : ¬ k = k0 := fun h3 => h h3.symm
      simp only [GoMap.keys] at ih
      simp only [GoMap.set, h, if_false, GoMap.keys, List.map_cons, List.mem_cons, h2, false_or, ih]
      split <;> simp

theorem set_of_not_mem (m : GoMap) (k v : GoString) (h : k ∉ GoMap.keys m) :
    GoMap.set m k v = m ++ [(k, v)] := by
  induction m with
  | nil => rfl
  | cons e rest ih =>
    obtain ⟨k0, v0⟩ := e
    simp only [GoMap.keys, List.map_cons, List.mem_cons, not_or] at h
    have h2 : ¬ k0 = k := fun h3 => h.1 h3.symm
    simp only [GoMap.set, h2, if_false, List.cons_append]
    rw [ih h.2]

theorem fold_set_keys (f : AnyValue → GoString) (l : List (GoString × AnyValue)) (m : GoMap)
    (k : GoString) :
    k ∈ GoMap.keys (l.foldl (fun row cv => GoMap.set row cv.1 (f cv.2)) m) ↔
      k ∈ GoMap.keys m ∨ k ∈ l.map Prod.fst := by
  induction l generalizing m with
  | nil => simp
  | cons x rest ih =>
    rw [List.foldl_cons, ih, keys_set]
    by_cases h : x.1 ∈ GoMap.keys m
    · simp only [h, if_true, List.map_cons, List.mem_cons]
      constructor
      · rintro (h1 | h1)
        · exact Or.inl h1
        · exact Or.inr (Or.inr h1)
      · rintro (h1 | h1 | h1)
        · exact Or.inl h1
        · exact Or.inl (h1 ▸ h)
        · exact Or.inr h1
    · simp only [h, if_false, List.map_cons, List.mem_cons, List.mem_append, List.mem_singleton]
      tauto

theorem fold_set_nodup (f : AnyValue → GoString) (l : List (GoString × AnyValue)) (m : GoMap)
    (h : (GoMap.keys m).Nodup) :
    (GoMap.keys (l.foldl (fun row cv => GoMap.set row cv.1 (f cv.2)) m)).Nodup := by
  induction l generalizing m with
  | nil => simpa using h
  | cons x rest ih =>
    rw [List.foldl_cons]
    apply ih
    rw [keys_set]
    by_cases hx : x.1 ∈ GoMap.keys m
    · simpa [hx] using h
    · simp only [hx, if_false]
      exact List.Nodup.append h (List.nodup_singleton _) (by simpa using hx)

theorem length_scanInto (n : Nat) (w : List AnyValue) : (scanInto n w).length = n := by
  simp [scanInto]

theorem keys_normalizeRow (cols : List GoString) (w : List AnyValue) (k : GoString) :
    k ∈ GoMap.keys (normalizeRow cols w) ↔ k ∈ cols := by
  unfold normalizeRow makeRow
  rw [fold_set_keys]
  have : (cols.zip (scanInto cols.length w)).map Prod.fst = cols :=
    List.map_fst_zip _ _ (by rw [length_scanInto])
  rw [this]
  simp [GoMap.keys]

theorem nodup_keys_normalizeRow (cols : List GoString) (w : List AnyValue) :
    (GoMap.keys (normalizeRow cols w)).Nodup := by
  unfold normalizeRow makeRow
  exact fold_set_nodup _ _ _ (by simp [GoMap.keys])

theorem fold_set_fresh (f : AnyValue → GoString) (l : List (GoString × AnyValue)) (m : GoMap)
    (h : (GoMap.keys m ++ l.map Prod.fst).Nodup) :
    l.foldl (fun row cv => GoMap.set row cv.1 (f cv.2)) m =
      m ++ l.map (fun cv => (cv.1, f cv.2)) := by
  induction l generalizing m with
  | nil => simp
  | cons x rest ih =>
    have hx : x.1 ∉ GoMap.keys m := by
      intro hmem
      rw [List.nodup_append] at h
      exact h.2.2 hmem (by simp)
    rw [List.foldl_cons, set_of_not_mem m _ _ hx, ih]
    · simp
    · simpa [GoMap.keys, List.append_assoc] using h

theorem normalizeRow_nodup (cols : List GoString) (w : List AnyValue) (h : cols.Nodup) :
    normalizeRow cols w = cols.zip ((scanInto cols.length w).map normalizeCell) := by
  unfold normalizeRow makeRow
  rw [fold_set_fresh]
  · rw [List.nil_append, List.zip_map_right]
    apply List.map_congr_left
    intro a _
    rfl
  · have : (cols.zip (scanInto cols.length w)).map Prod.fst = cols :=
      List.map_fst_zip _ _ (by rw [length_scanInto])
    simpa [GoMap.keys, this] using h

/-! ## C6: row count, order and column set -/

/-- C6: on every invocation that runs through all stages, `rows` holds exactly one map per
row the cursor emitted, that is per `Next` that returned true, in emission order: its i-th
element is the normalization of the i-th emitted row (nothing is sorted, dropped or
merged); and every row map has the key set of the column names reported by `Columns`
(with distinct column names a row is the column list paired with its normalized cells).
On the seven-row fish cursor the invocation returns seven rows, the first named
"star fish" and the last "red fish". -/
theorem rows_in_emission_order (env : Env) (cfg : sqliteQueryModel) (resp : ReadResponse)
    (db : dbRunner) (rows : rowIterator) (cols : List GoString)
    (hentry : entryOK cfg resp = true) (hrun : runsThrough env cfg db rows cols) :
    rows.feed = (okRows rows.feed).map Except.ok ∧
      (readWithModel env cfg resp).cfg.Rows = some ((okRows rows.feed).map (normalizeRow cols)) ∧
      ((okRows rows.feed).map (normalizeRow cols)).length =
        (readWithModel env cfg resp).calls.count (Call.Next true) ∧
      ((okRows rows.feed).map (normalizeRow cols)).length = rows.feed.length ∧
      (∀ i (hi : i < (okRows rows.feed).length),
        ((okRows rows.feed).map (normalizeRow cols))[i]? =
          some (normalizeRow cols ((okRows rows.feed).get ⟨i, hi⟩))) ∧
      (∀ row ∈ (okRows rows.feed).map (normalizeRow cols),
        ∀ k, k ∈ GoMap.keys row ↔ k ∈ cols) ∧
      (cols.Nodup → ∀ w ∈ okRows rows.feed,
        normalizeRow cols w = cols.zip ((scanInto cols.length w).map normalizeCell)) ∧
      ((readWithModel fishEnv fishModel freshResp).cfg.Rows.map List.length = some 7 ∧
        (readWithModel fishEnv fishModel freshResp).cfg.Rows.map
            (fun r => (r.map (fun row => GoMap.get? row (lit "name")))[0]?) =
          some (some (some (lit "star fish"))) ∧
        (readWithModel fishEnv fishModel freshResp).cfg.Rows.map
            (fun r => (r.map (fun row => GoMap.get? row (lit "name")))[6]?) =
          some (some (some (lit "red fish")))) := by
  have hfeed := feed_all_ok rows.feed hrun.2.2.2.2.1
  have hcount := count_next_scanCalls cols.length rows.feed hrun.2.2.2.2.1
  rw [readWithModel_full env cfg resp db rows cols hentry hrun]
  refine ⟨hfeed, rfl, ?_, ?_, ?_, ?_, ?_, by decide, by decide, by decide⟩
  · simp only [fullCalls, List.count_cons, List.count_append, hcount, List.length_map]
    simp
  · conv_rhs => rw [hfeed]
    simp
  · intro i hi
    simp [List.getElem?_eq_getElem hi]
  · intro row hrow k
    obtain ⟨w, -, rfl⟩ := List.mem_map.mp hrow
    exact keys_normalizeRow cols w k
  · intro hnd w _
    exact normalizeRow_nodup cols w hnd

/-- C6 (witness): the fish cursor runs through all stages and yields seven rows. -/
theorem rows_in_emission_order_witness :
    entryOK fishModel freshResp = true ∧
      runsThrough fishEnv fishModel fishDB fishRows [lit "name", lit "color", lit "count"] ∧
      (readWithModel fishEnv fishModel freshResp).cfg.Rows =
        some ((okRows fishRows.feed).map
          (normalizeRow [lit "name", lit "color", lit "count"])) :=
  ⟨by decide, ⟨rfl, by decide, rfl, rfl, by decide, rfl⟩,
    (rows_in_emission_order fishEnv fishModel freshResp fishDB fishRows
      [lit "name", lit "color", lit "count"] (by decide)
      ⟨rfl, by decide, rfl, rfl, by decide, rfl⟩).2.1⟩

/-! ## The paths of readWithModel -/

theorem failedWith_of (cfg : sqliteQueryModel) (resp : ReadResponse) (calls : List Call)
    (s e : String) (hb : Diagnostics.HasError (boundResp cfg resp).Diagnostics = false)
    (hc : Call.StateSet ∉ calls) :
    failedWith cfg resp ⟨cfg, addError (boundResp cfg resp) s e, calls⟩ s e :=
  ⟨(addError_diags _ _ _ hb).1, rfl, by rw [(addError_diags _ _ _ hb).2, boundResp_state], hc⟩

theorem path_refused (env : Env) (cfg : sqliteQueryModel) (resp : ReadResponse) (db : dbRunner)
    (hentry : entryOK cfg resp = true)
    (hopen : env.newSQLiteDB (dsnOf cfg.DBPath.ValueString) = Except.ok db)
    (hns : notSelect cfg.Query.ValueString = true) :
    readWithModel env cfg resp =
      ⟨cfg, addError (boundResp cfg resp) "query must be SELECT"
          "Only read-only SELECT queries are allowed.",
        [Call.newSQLiteDB (dsnOf cfg.DBPath.ValueString), Call.dbClose db.Close]⟩ := by
  rw [readWithModel_opened env cfg resp db hentry hopen, runQuery_refused env cfg _ db _ _ hns]
  rfl

theorem path_queryFailed (env : Env) (cfg : sqliteQueryModel) (resp : ReadResponse)
    (db : dbRunner) (err : GoError) (hentry : entryOK cfg resp = true)
    (hopen : env.newSQLiteDB (dsnOf cfg.DBPath.ValueString) = Except.ok db)
    (hns : notSelect cfg.Query.ValueString = false)
    (hq : db.QueryContext cfg.Query.ValueString (boundArgs env cfg) = Except.error err) :
    readWithModel env cfg resp =
      ⟨cfg, addError (boundResp cfg resp) "query failed" err,
        [Call.newSQLiteDB (dsnOf cfg.DBPath.ValueString),
          Call.QueryContext cfg.Query.ValueString (boundArgs env cfg),
          Call.dbClose db.Close]⟩ := by
  rw [readWithModel_opened env cfg resp db hentry hopen,
    runQuery_queryFailed env cfg _ db _ _ err hns hq]
  rfl

theorem path_columnsFailed (env : Env) (cfg : sqliteQueryModel) (resp : ReadResponse)
    (db : dbRunner) (rows : rowIterator) (err : GoError) (hentry : entryOK cfg resp = true)
    (hopen : env.newSQLiteDB (dsnOf cfg.DBPath.ValueString) = Except.ok db)
    (hns : notSelect cfg.Query.ValueString = false)
    (hq : db.QueryContext cfg.Query.ValueString (boundArgs env cfg) = Except.ok rows)
    (hc : rows.Columns = Except.error err) :
    readWithModel env cfg resp =
      ⟨cfg, addError (boundResp cfg resp) "columns failed" err,
        [Call.newSQLiteDB (dsnOf cfg.DBPath.ValueString),
          Call.QueryContext cfg.Query.ValueString (boundArgs env cfg),
          Call.Columns, Call.rowsClose rows.Close, Call.dbClose db.Close]⟩ := by
  rw [readWithModel_opened env cfg resp db hentry hopen,
    runQuery_queried env cfg _ db _ _ rows hns hq, readRows_columnsFailed env cfg _ rows err hc]
  rfl

theorem path_scanFailed (env : Env) (cfg : sqliteQueryModel) (resp : ReadResponse)
    (db : dbRunner) (rows : rowIterator) (cols : List GoString) (err : GoError)
    (hentry : entryOK cfg resp = true)
    (hopen : env.newSQLiteDB (dsnOf cfg.DBPath.ValueString) = Except.ok db)
    (hns : notSelect cfg.Query.ValueString = false)
    (hq : db.QueryContext cfg.Query.ValueString (boundArgs env cfg) = Except.ok rows)
    (hc : rows.Columns = Except.ok cols) (hs : firstScanError rows.feed = some err) :
    readWithModel env cfg resp =
      ⟨cfg, addError (boundResp cfg resp) "scan failed" err,
        Call.newSQLiteDB (dsnOf cfg.DBPath.ValueString) ::
          Call.QueryContext cfg.Query.ValueString (boundArgs env cfg) ::
          Call.Columns ::
          (scanCalls cols.length rows.feed ++
            [Call.rowsClose rows.Close, Call.dbClose db.Close])⟩ := by
  rw [readWithModel_opened env cfg resp db hentry hopen,
    runQuery_queried env cfg _ db _ _ rows hns hq,
    readRows_scanFailed env cfg _ rows cols err hc hs]
  simp

theorem path_rowsErr (env : Env) (cfg : sqliteQueryModel) (resp : ReadResponse)
    (db : dbRunner) (rows : rowIterator) (cols : List GoString) (err : GoError)
    (hentry : entryOK cfg resp = true)
    (hopen : env.newSQLiteDB (dsnOf cfg.DBPath.ValueString) = Except.ok db)
    (hns : notSelect cfg.Query.ValueString = false)
    (hq : db.QueryContext cfg.Query.ValueString (boundArgs env cfg) = Except.ok rows)
    (hc : rows.Columns = Except.ok cols) (hs : firstScanError rows.feed = none)
    (he : rows.Err = some err) :
    readWithModel env cfg resp =
      ⟨cfg, addError (boundResp cfg resp) "row iteration failed" err,
        Call.newSQLiteDB (dsnOf cfg.DBPath.ValueString) ::
          Call.QueryContext cfg.Query.ValueString (boundArgs env cfg) ::
          Call.Columns ::
          (scanCalls cols.length rows.feed ++
            [Call.Err, Call.rowsClose rows.Close, Call.dbClose db.Close])⟩ := by
  rw [readWithModel_opened env cfg resp db hentry hopen,
    runQuery_queried env cfg _ db _ _ rows hns hq,
    readRows_rowsErr env cfg _ rows cols err hc hs he]
  simp

theorem any_failed_scan (feed : List (Except GoError (List AnyValue))) :
    feed.any (fun r => !r.toBool) = (firstScanError feed).isSome := by
  induction feed with
  | nil => rfl
  | cons x rest ih =>
    cases x with
    | error e => simp [firstScanError, Except.toBool]
    | ok w =>
      rw [List.any_cons, ih]
      simp [firstScanError, Except.toBool]

theorem stateSet_not_mem_scanCalls (n : Nat) (feed : List (Except GoError (List AnyValue)))
    (tail : List Call) (h : Call.StateSet ∉ tail) :
    Call.StateSet ∉ scanCalls n feed ++ tail := by
  intro hmem
  rcases List.mem_append.mp hmem with h1 | h1
  · rcases mem_scanCalls _ _ _ h1 with h2 | h2 | h2 <;> exact Call.noConfusion h2
  · exact h h1

theorem errorCount_one (d : Diagnostics) (s e : String)
    (h : Diagnostics.HasError d = false) :
    Diagnostics.errorCount (d ++ [⟨Severity.error, s, e⟩]) = 1 := by
  have h0 := errorCount_zero d h
  simp only [Diagnostics.errorCount] at h0 ⊢
  simp [List.countP_append, h0]

/-! ## C7: all or nothing -/

theorem all_or_nothing_entered (env : Env) (cfg : sqliteQueryModel) (resp : ReadResponse)
    (hentry : entryOK cfg resp = true) :
    (stageFails env cfg = true →
        ∃ s e, failedWith cfg resp (readWithModel env cfg resp) s e ∧
          Diagnostics.errorCount (readWithModel env cfg resp).resp.Diagnostics = 1 ∧
          (readWithModel env cfg resp).cfg.Rows = cfg.Rows ∧
          (readWithModel env cfg resp).cfg.ResultJSON = cfg.ResultJSON) ∧
      (stageFails env cfg = false →
        ∃ out, (readWithModel env cfg resp).cfg = withResult env cfg out ∧
          (readWithModel env cfg resp).cfg.Rows = some out ∧
          (readWithModel env cfg resp).cfg.ResultJSON = TfString.value (Marshal env.jsonV2 out) ∧
          (readWithModel env cfg resp).resp.Diagnostics =
            (boundResp cfg resp).Diagnostics.Append
              (env.stateSet (readWithModel env cfg resp).cfg) ∧
          Call.StateSet ∈ (readWithModel env cfg resp).calls ∧
          (Diagnostics.HasError (env.stateSet (readWithModel env cfg resp).cfg) = false →
            Diagnostics.errorCount (readWithModel env cfg resp).resp.Diagnostics = 0 ∧
              (readWithModel env cfg resp).resp.State =
                some (readWithModel env cfg resp).cfg)) := by
  have hb := (bindParams_ok env cfg resp hentry).2
  have hfail : ∀ (calls : List Call) (s e : String), Call.StateSet ∉ calls →
      readWithModel env cfg resp = ⟨cfg, addError (boundResp cfg resp) s e, calls⟩ →
      ∃ s e, failedWith cfg resp (readWithModel env cfg resp) s e ∧
        Diagnostics.errorCount (readWithModel env cfg resp).resp.Diagnostics = 1 ∧
        (readWithModel env cfg resp).cfg.Rows = cfg.Rows ∧
        (readWithModel env cfg resp).cfg.ResultJSON = cfg.ResultJSON := by
    intro calls s e hc heq
    refine ⟨s, e, ?_, ?_, ?_, ?_⟩
    · rw [heq]; exact failedWith_of cfg resp calls s e hb hc
    · rw [heq]
      simp only [(addError_diags _ _ _ hb).1]
      exact errorCount_one _ _ _ hb
    · rw [heq]
    · rw [heq]
  cases hopen : env.newSQLiteDB (dsnOf cfg.DBPath.ValueString) with
  | error err =>
    refine ⟨fun _ => ?_, fun h => ?_⟩
    · exact hfail _ _ _ (by simp) (readWithModel_openFailed env cfg resp err hentry hopen)
    · simp [stageFails, hopen] at h
  | ok db =>
    cases hns : notSelect cfg.Query.ValueString with
    | true =>
      refine ⟨fun _ => ?_, fun h => ?_⟩
      · exact hfail _ _ _ (by simp) (path_refused env cfg resp db hentry hopen hns)
      · simp [stageFails, hopen, hns] at h
    | false =>
      cases hq : db.QueryContext cfg.Query.ValueString (boundArgs env cfg) with
      | error err =>
        refine ⟨fun _ => ?_, fun h => ?_⟩
        · exact hfail _ _ _ (by simp) (path_queryFailed env cfg resp db err hentry hopen hns hq)
        · simp [stageFails, hopen, hns, hq] at h
      | ok rows =>
        cases hc : rows.Columns with
        | error err =>
          refine ⟨fun _ => ?_, fun h => ?_⟩
          · exact hfail _ _ _ (by simp)
              (path_columnsFailed env cfg resp db rows err hentry hopen hns hq hc)
          · simp [stageFails, hopen, hns, hq, hc] at h
        | ok cols =>
          cases hs : firstScanError rows.feed with
          | some err =>
            refine ⟨fun _ => ?_, fun h => ?_⟩
            · refine hfail _ _ _ ?_
                (path_scanFailed env cfg resp db rows cols err hentry hopen hns hq hc hs)
              simp only [List.mem_cons, not_or]
              exact ⟨by simp, by simp, by simp,
                stateSet_not_mem_scanCalls _ _ _ (by simp)⟩
            · simp [stageFails, hopen, hns, hq, hc, any_failed_scan, hs] at h
          | none =>
            cases he : rows.Err with
            | some err =>
              refine ⟨fun _ => ?_, fun h => ?_⟩
              · refine hfail _ _ _ ?_
                  (path_rowsErr env cfg resp db rows cols err hentry hopen hns hq hc hs he)
                simp only [List.mem_cons, not_or]
                exact ⟨by simp, by simp, by simp,
                  stateSet_not_mem_scanCalls _ _ _ (by simp)⟩
              · simp [stageFails, hopen, hns, hq, hc, any_failed_scan, hs, he] at h
            | none =>
              have hfull := readWithModel_full env cfg resp db rows cols hentry
                ⟨hopen, hns, hq, hc, hs, he⟩
              refine ⟨fun h => ?_, fun _ => ?_⟩
              · simp [stageFails, hopen, hns, hq, hc, any_failed_scan, hs, he] at h
              · refine ⟨(okRows rows.feed).map (normalizeRow cols), ?_, ?_, ?_, ?_, ?_, ?_⟩
                · rw [hfull]
                · rw [hfull]; rfl
                · rw [hfull]; rfl
                · rw [hfull]
                · rw [hfull]; simp [fullCalls]
                · rw [hfull]
                  intro hse
                  refine ⟨errorCount_zero _ ?_, ?_⟩
                  · simp only [hasError_append, hb, hse, Bool.or_false]
                  · simp only [hse]
                    rfl

theorem readWithModel_paramsFail (env : Env) (cfg : sqliteQueryModel) (resp : ReadResponse)
    (h : paramsFail cfg = true) :
    readWithModel env cfg resp =
      ⟨cfg, { resp with Diagnostics := resp.Diagnostics.Append cfg.Params.ElementsAs.1 }, []⟩ ∧
      Diagnostics.HasError (resp.Diagnostics.Append cfg.Params.ElementsAs.1) = true := by
  simp only [paramsFail, Bool.and_eq_true, Bool.not_eq_true'] at h
  have herr : Diagnostics.HasError (resp.Diagnostics.Append cfg.Params.ElementsAs.1) = true := by
    rw [hasError_append, h.2, Bool.or_true]
  exact ⟨by simp [readWithModel, bindParams, h.1, herr], herr⟩

/-- C7: take any invocation on a response that is free of errors on entry (as `Read` hands
it over).  If any stage fails (opener, SELECT check, `QueryContext`, `Columns`, a `Scan` on
any row, also one that follows rows scanned well, or `Err` after the loop), the response
gains exactly one diagnostic, an error, so that it holds exactly one error diagnostic; the
model with its `rows` and `result_json` is unchanged and the state is not set.  When no
stage fails, `readWithModel` adds no error diagnostic of its own (the diagnostics are those
on entry extended by what `State.Set` returns, and hold no error when `State.Set` reports
none), and `rows` and `result_json` are both set.  An invocation that stops earlier, at the
conversion of `params`, is no exception: it ends with an error, an unchanged model, no
state and no call made. -/
theorem all_or_nothing (env : Env) (cfg : sqliteQueryModel) (resp : ReadResponse)
    (hresp : Diagnostics.HasError resp.Diagnostics = false) :
    (paramsFail cfg = false → stageFails env cfg = true →
        ∃ s e, failedWith cfg resp (readWithModel env cfg resp) s e ∧
          Diagnostics.errorCount (readWithModel env cfg resp).resp.Diagnostics = 1 ∧
          (readWithModel env cfg resp).cfg.Rows = cfg.Rows ∧
          (readWithModel env cfg resp).cfg.ResultJSON = cfg.ResultJSON) ∧
      (paramsFail cfg = false → stageFails env cfg = false →
        ∃ out, (readWithModel env cfg resp).cfg = withResult env cfg out ∧
          (readWithModel env cfg resp).cfg.Rows = some out ∧
          (readWithModel env cfg resp).cfg.ResultJSON = TfString.value (Marshal env.jsonV2 out) ∧
          (readWithModel env cfg resp).resp.Diagnostics =
            (boundResp cfg resp).Diagnostics.Append
              (env.stateSet (readWithModel env cfg resp).cfg) ∧
          Call.StateSet ∈ (readWithModel env cfg resp).calls ∧
          (Diagnostics.HasError (env.stateSet (readWithModel env cfg resp).cfg) = false →
            Diagnostics.errorCount (readWithModel env cfg resp).resp.Diagnostics = 0 ∧
              (readWithModel env cfg resp).resp.State =
                some (readWithModel env cfg resp).cfg)) ∧
      (paramsFail cfg = true →
        Diagnostics.HasError (readWithModel env cfg resp).resp.Diagnostics = true ∧
          (readWithModel env cfg resp).cfg = cfg ∧
          (readWithModel env cfg resp).resp.State = resp.State ∧
          (readWithModel env cfg resp).calls = []) := by
  have hentry : paramsFail cfg = false → entryOK cfg resp = true := by
    intro hp
    simp only [paramsFail, Bool.and_eq_false_iff, Bool.not_eq_false'] at hp
    simp only [entryOK, hresp, Bool.not_false, Bool.true_and, Bool.or_eq_true,
      Bool.not_eq_true']
    exact hp
  refine ⟨fun hp => (all_or_nothing_entered env cfg resp (hentry hp)).1,
    fun hp => (all_or_nothing_entered env cfg resp (hentry hp)).2, fun hp => ?_⟩
  obtain ⟨h1, h2⟩ := readWithModel_paramsFail env cfg resp hp
  rw [h1]
  exact ⟨h2, rfl, rfl, rfl⟩

/-- C7 (witness): the unit test `TestRead_scanError` (one column, one row, `Scan` fails with
"scan boom") ends with the single error "scan failed" and an untouched model. -/
theorem all_or_nothing_witness :
    Diagnostics.HasError freshResp.Diagnostics = false ∧
      paramsFail (modelOf "/tmp/any.db" "SELECT 1") = false ∧
      stageFails (stubEnv (stubRows (some [lit "c"]) [true] (some "scan boom") none))
        (modelOf "/tmp/any.db" "SELECT 1") = true ∧
      (∃ s e, failedWith (modelOf "/tmp/any.db" "SELECT 1") freshResp
          (readWithModel (stubEnv (stubRows (some [lit "c"]) [true] (some "scan boom") none))
            (modelOf "/tmp/any.db" "SELECT 1") freshResp) s e ∧
        Diagnostics.errorCount
          (readWithModel (stubEnv (stubRows (some [lit "c"]) [true] (some "scan boom") none))
            (modelOf "/tmp/any.db" "SELECT 1") freshResp).resp.Diagnostics = 1 ∧
        (readWithModel (stubEnv (stubRows (some [lit "c"]) [true] (some "scan boom") none))
            (modelOf "/tmp/any.db" "SELECT 1") freshResp).cfg.Rows = none ∧
        (readWithModel (stubEnv (stubRows (some [lit "c"]) [true] (some "scan boom") none))
            (modelOf "/tmp/any.db" "SELECT 1") freshResp).cfg.ResultJSON = TfString.null) :=
  ⟨by decide, by decide, by decide,
    (all_or_nothing (stubEnv (stubRows (some [lit "c"]) [true] (some "scan boom") none))
      (modelOf "/tmp/any.db" "SELECT 1") freshResp (by decide)).1 (by decide) (by decide)⟩

/-! ## C8: bind arguments -/

theorem readRows_calls_mem (env : Env) (cfg : sqliteQueryModel) (resp : ReadResponse)
    (rows : rowIterator) (c : Call) (h : c ∈ (readRows env cfg resp rows).calls) :
    c = Call.Columns ∨ c = Call.Next true ∨ (∃ n, c = Call.Scan n) ∨ c = Call.Next false ∨
      c = Call.Err ∨ c = Call.StateSet := by
  have hscan : ∀ n feed, c ∈ scanCalls n feed →
      c = Call.Columns ∨ c = Call.Next true ∨ (∃ n, c = Call.Scan n) ∨ c = Call.Next false ∨
        c = Call.Err ∨ c = Call.StateSet := by
    intro n feed hm
    rcases mem_scanCalls _ _ _ hm with h1 | h1 | h1
    · exact Or.inr (Or.inl h1)
    · exact Or.inr (Or.inr (Or.inl ⟨n, h1⟩))
    · exact Or.inr (Or.inr (Or.inr (Or.inl h1)))
  cases hc : rows.Columns with
  | error err =>
    rw [readRows_columnsFailed env cfg resp rows err hc] at h
    simp only [List.mem_singleton] at h
    exact Or.inl h
  | ok cols =>
    cases hs : firstScanError rows.feed with
    | some err =>
      rw [readRows_scanFailed env cfg resp rows cols err hc hs] at h
      rcases List.mem_cons.mp h with h1 | h1
      · exact Or.inl h1
      · exact hscan _ _ h1
    | none =>
      cases he : rows.Err with
      | some err =>
        rw [readRows_rowsErr env cfg resp rows cols err hc hs he] at h
        rcases List.mem_cons.mp h with h1 | h1
        · exact Or.inl h1
        · rcases List.mem_append.mp h1 with h2 | h2
          · exact hscan _ _ h2
          · rw [List.mem_singleton] at h2
            exact Or.inr (Or.inr (Or.inr (Or.inr (Or.inl h2))))
      | none =>
        rw [readRows_success env cfg resp rows cols hc hs he] at h
        rcases List.mem_cons.mp h with h1 | h1
        · exact Or.inl h1
        · rcases List.mem_append.mp h1 with h2 | h2
          · exact hscan _ _ h2
          · simp only [List.mem_cons, List.mem_singleton, List.not_mem_nil, or_false] at h2
            rcases h2 with h3 | h3
            · exact Or.inr (Or.inr (Or.inr (Or.inr (Or.inl h3))))
            · exact Or.inr (Or.inr (Or.inr (Or.inr (Or.inr h3))))

theorem queryContext_not_mem_readRows (env : Env) (cfg : sqliteQueryModel)
    (resp : ReadResponse) (rows : rowIterator) (q : GoString) (a : List NamedArg) :
    Call.QueryContext q a ∉ (readRows env cfg resp rows).calls := by
  intro h
  rcases readRows_calls_mem env cfg resp rows _ h with h | h | ⟨n, h⟩ | h | h | h <;>
    exact Call.noConfusion h

/-- C8: on every invocation that reaches `QueryContext` (opener succeeded, query passed
the check), whatever order the runtime ranges over the map in, `QueryContext` is called once,
with the query and with bind arguments that are, for a non-null params map p, exactly one
named argument per entry of p: the name is the key and the value is the entry's string,
unchanged and still a string, so the arguments are a rearrangement of the entries of p and
as many as they are.  When params is null or empty there are no bind arguments. -/
theorem params_bound_as_text (env : Env) (cfg : sqliteQueryModel) (resp : ReadResponse)
    (db : dbRunner) (hentry : entryOK cfg resp = true)
    (hrange : ∀ m, (env.mapRange m).Perm m)
    (hopen : env.newSQLiteDB (dsnOf cfg.DBPath.ValueString) = Except.ok db)
    (hns : notSelect cfg.Query.ValueString = false) :
    ∃ args, Call.QueryContext cfg.Query.ValueString args ∈ (readWithModel env cfg resp).calls ∧
      (∀ q a, Call.QueryContext q a ∈ (readWithModel env cfg resp).calls →
        q = cfg.Query.ValueString ∧ a = args) ∧
      (cfg.Params.IsNull = false →
        args.Perm (cfg.Params.ElementsAs.2.map (fun e => Named e.1 (AnyValue.str e.2))) ∧
          args.length = cfg.Params.ElementsAs.2.length ∧
          (∀ a ∈ args, ∃ e ∈ cfg.Params.ElementsAs.2, a.Name = e.1 ∧ a.Value = AnyValue.str e.2) ∧
          (∀ e ∈ cfg.Params.ElementsAs.2, (⟨e.1, AnyValue.str e.2⟩ : NamedArg) ∈ args)) ∧
      (cfg.Params.IsNull = true ∨ cfg.Params.ElementsAs.2 = [] → args = []) := by
  refine ⟨boundArgs env cfg, ?_, ?_, ?_, ?_⟩
  · rw [readWithModel_opened env cfg resp db hentry hopen]
    cases hq : db.QueryContext cfg.Query.ValueString (boundArgs env cfg) with
    | error err => rw [runQuery_queryFailed env cfg _ db _ _ err hns hq]; simp
    | ok rows => rw [runQuery_queried env cfg _ db _ _ rows hns hq]; simp
  · intro q a hmem
    rw [readWithModel_opened env cfg resp db hentry hopen] at hmem
    cases hq : db.QueryContext cfg.Query.ValueString (boundArgs env cfg) with
    | error err =>
      rw [runQuery_queryFailed env cfg _ db _ _ err hns hq] at hmem
      simp only [List.mem_cons, List.mem_append, List.mem_singleton, List.not_mem_nil,
        or_false] at hmem
      rcases hmem with h | h | h
      · exact Call.noConfusion h
      · injection h with h1 h2
        exact ⟨h1, h2⟩
      · exact Call.noConfusion h
    | ok rows =>
      rw [runQuery_queried env cfg _ db _ _ rows hns hq] at hmem
      simp only [List.mem_cons, List.mem_append, List.mem_singleton, List.not_mem_nil,
        or_false] at hmem
      rcases hmem with h | (h | h | h) | h
      · exact Call.noConfusion h
      · injection h with h1 h2
        exact ⟨h1, h2⟩
      · exact absurd h (queryContext_not_mem_readRows env cfg _ rows q a)
      · exact Call.noConfusion h
      · exact Call.noConfusion h
  · intro hnull
    have hperm : (boundArgs env cfg).Perm
        (cfg.Params.ElementsAs.2.map (fun e => Named e.1 (AnyValue.str e.2))) := by
      simp only [boundArgs, hnull, Bool.false_eq_true, if_false]
      exact (hrange _).map _
    refine ⟨hperm, by rw [hperm.length_eq, List.length_map], ?_, ?_⟩
    · intro a ha
      obtain ⟨e, he, rfl⟩ := List.mem_map.mp (hperm.mem_iff.mp ha)
      exact ⟨e, he, rfl, rfl⟩
    · intro e he
      exact hperm.mem_iff.mpr (List.mem_map.mpr ⟨e, he, rfl⟩)
  · intro h
    rcases h with h | h
    · simp [boundArgs, h]
    · by_cases hnull : cfg.Params.IsNull = true
      · simp [boundArgs, hnull]
      · have h2 : env.mapRange [] = [] := List.Perm.eq_nil (hrange [])
        simp [boundArgs, hnull, h, h2]

/-- C8 (witness): the params map of the acceptance test `withParams`, color = "red". -/
theorem params_bound_as_text_witness :
    entryOK redModel freshResp = true ∧ notSelect redModel.Query.ValueString = false ∧
      ∃ args, Call.QueryContext redModel.Query.ValueString args ∈
          (readWithModel fishEnv redModel freshResp).calls ∧
        args.Perm [Named (lit "color") (AnyValue.str (lit "red"))] :=
  ⟨by decide, by decide,
    (params_bound_as_text fishEnv redModel freshResp fishDB (by decide)
      (fun m => List.reverse_perm m) rfl (by decide)).elim
      (fun args h => ⟨args, h.1, (h.2.2.1 rfl).1⟩)⟩

/-! ## C9: release of the handle and the cursor -/

theorem readRows_close_irrelevant (env : Env) (cfg : sqliteQueryModel) (resp : ReadResponse)
    (rows : rowIterator) (e : Option GoError) :
    readRows env cfg resp { rows with Close := e } = readRows env cfg resp rows := by
  simp only [readRows]

theorem readRows_env_close_irrelevant (env : Env) (cfg : sqliteQueryModel)
    (resp : ReadResponse) (rows : rowIterator) (e1 e2 : Option GoError) :
    readRows (withCloseErrors env e1 e2) cfg resp rows = readRows env cfg resp rows := by
  simp only [readRows, withCloseErrors]

theorem close_not_mem_readRows (env : Env) (cfg : sqliteQueryModel) (resp : ReadResponse)
    (rows : rowIterator) (e : Option GoError) :
    Call.rowsClose e ∉ (readRows env cfg resp rows).calls ∧
      Call.dbClose e ∉ (readRows env cfg resp rows).calls := by
  constructor <;> intro h <;>
    rcases readRows_calls_mem env cfg resp rows _ h with h | h | ⟨n, h⟩ | h | h | h <;>
    exact Call.noConfusion h

/-- C9: on every invocation in which the opener succeeds, the handle is closed exactly
once, as the last call before `readWithModel` returns, on every exit path; when the query
passes the check and `QueryContext` succeeds, the cursor is closed exactly once too, right
before the handle is closed; when `QueryContext` is not reached or fails, no cursor is
closed.  What either `Close` returns has no influence on the response or on the model. -/
theorem closes_once_on_every_path (env : Env) (cfg : sqliteQueryModel) (resp : ReadResponse)
    (db : dbRunner) (hentry : entryOK cfg resp = true)
    (hopen : env.newSQLiteDB (dsnOf cfg.DBPath.ValueString) = Except.ok db) :
    (∃ before, (readWithModel env cfg resp).calls = before ++ [Call.dbClose db.Close] ∧
        ∀ e, Call.dbClose e ∉ before) ∧
      (∀ rows, notSelect cfg.Query.ValueString = false →
        db.QueryContext cfg.Query.ValueString (boundArgs env cfg) = Except.ok rows →
        ∃ before, (readWithModel env cfg resp).calls =
            before ++ [Call.rowsClose rows.Close, Call.dbClose db.Close] ∧
          ∀ e, Call.rowsClose e ∉ before ∧ Call.dbClose e ∉ before) ∧
      ((notSelect cfg.Query.ValueString = true ∨
          ∃ err, db.QueryContext cfg.Query.ValueString (boundArgs env cfg) = Except.error err) →
        ∀ e, Call.rowsClose e ∉ (readWithModel env cfg resp).calls) ∧
      (∀ e1 e2, (readWithModel (withCloseErrors env e1 e2) cfg resp).resp =
          (readWithModel env cfg resp).resp ∧
        (readWithModel (withCloseErrors env e1 e2) cfg resp).cfg =
          (readWithModel env cfg resp).cfg) := by
  have hqueried : ∀ rows, notSelect cfg.Query.ValueString = false →
      db.QueryContext cfg.Query.ValueString (boundArgs env cfg) = Except.ok rows →
      ∃ before, (readWithModel env cfg resp).calls =
          before ++ [Call.rowsClose rows.Close, Call.dbClose db.Close] ∧
        ∀ e, Call.rowsClose e ∉ before ∧ Call.dbClose e ∉ before := by
    intro rows hns hq
    rw [readWithModel_opened env cfg resp db hentry hopen,
      runQuery_queried env cfg _ db _ _ rows hns hq]
    refine ⟨Call.newSQLiteDB (dsnOf cfg.DBPath.ValueString) ::
      Call.QueryContext cfg.Query.ValueString (boundArgs env cfg) ::
      (readRows env cfg (boundResp cfg resp) rows).calls, by simp, ?_⟩
    intro e
    have h := close_not_mem_readRows env cfg (boundResp cfg resp) rows e
    constructor
    · intro hm
      rcases List.mem_cons.mp hm with h1 | h1
      · exact Call.noConfusion h1
      · rcases List.mem_cons.mp h1 with h2 | h2
        · exact Call.noConfusion h2
        · exact h.1 h2
    · intro hm
      rcases List.mem_cons.mp hm with h1 | h1
      · exact Call.noConfusion h1
      · rcases List.mem_cons.mp h1 with h2 | h2
        · exact Call.noConfusion h2
        · exact h.2 h2
  refine ⟨?_, hqueried, ?_, ?_⟩
  · cases hns : notSelect cfg.Query.ValueString with
    | true =>
      rw [path_refused env cfg resp db hentry hopen hns]
      refine ⟨[Call.newSQLiteDB (dsnOf cfg.DBPath.ValueString)], rfl, ?_⟩
      intro e hm
      rw [List.mem_singleton] at hm
      exact Call.noConfusion hm
    | false =>
      cases hq : db.QueryContext cfg.Query.ValueString (boundArgs env cfg) with
      | error err =>
        rw [path_queryFailed env cfg resp db err hentry hopen hns hq]
        refine ⟨[Call.newSQLiteDB (dsnOf cfg.DBPath.ValueString),
          Call.QueryContext cfg.Query.ValueString (boundArgs env cfg)], rfl, ?_⟩
        intro e hm
        simp only [List.mem_cons, List.mem_singleton, List.not_mem_nil, or_false] at hm
        rcases hm with h | h <;> exact Call.noConfusion h
      | ok rows =>
        obtain ⟨before, h1, h2⟩ := hqueried rows hns hq
        refine ⟨before ++ [Call.rowsClose rows.Close], by rw [h1]; simp, ?_⟩
        intro e hm
        rcases List.mem_append.mp hm with h | h
        · exact (h2 e).2 h
        · rw [List.mem_singleton] at h
          exact Call.noConfusion h
  · intro h e hm
    rcases h with hns | ⟨err, hq⟩
    · rw [path_refused env cfg resp db hentry hopen hns] at hm
      simp only [List.mem_cons, List.mem_singleton, List.not_mem_nil, or_false] at hm
      rcases hm with h | h <;> exact Call.noConfusion h
    · cases hns : notSelect cfg.Query.ValueString with
      | true =>
        rw [path_refused env cfg resp db hentry hopen hns] at hm
        simp only [List.mem_cons, List.mem_singleton, List.not_mem_nil, or_false] at hm
        rcases hm with h | h <;> exact Call.noConfusion h
      | false =>
        rw [path_queryFailed env cfg resp db err hentry hopen hns hq] at hm
        simp only [List.mem_cons, List.mem_singleton, List.not_mem_nil, or_false] at hm
        rcases hm with h | h | h <;> exact Call.noConfusion h
  · intro e1 e2
    have hargs : boundArgs (withCloseErrors env e1 e2) cfg = boundArgs env cfg := rfl
    have hbind : bindParams (withCloseErrors env e1 e2) cfg resp = bindParams env cfg resp := rfl
    simp only [readWithModel, hbind, (bindParams_ok env cfg resp hentry).1]
    simp only [withCloseErrors, hopen, runQuery]
    cases hns : notSelect cfg.Query.ValueString with
    | true => simp
    | false =>
      cases hq : db.QueryContext cfg.Query.ValueString (boundArgs env cfg) with
      | error err => simp
      | ok rows =>
        have h1 := readRows_close_irrelevant env cfg (boundResp cfg resp) rows e2
        have h2 := readRows_env_close_irrelevant env cfg (boundResp cfg resp)
          { rows with Close := e2 } e1 e2
        simp only [withCloseErrors] at h2
        simp only [Bool.false_eq_true, if_false, h2, h1]
        exact ⟨trivial, trivial⟩

/-- C9 (witness): on the fish cursor the invocation ends with the cursor closed and then
the handle closed. -/
theorem closes_once_on_every_path_witness :
    entryOK fishModel freshResp = true ∧
      ∃ before, (readWithModel fishEnv fishModel freshResp).calls =
        before ++ [Call.rowsClose none, Call.dbClose none] :=
  ⟨by decide,
    ((closes_once_on_every_path fishEnv fishModel freshResp fishDB (by decide) rfl).2.1
      fishRows (by decide) rfl).elim (fun before h => ⟨before, h.1⟩)⟩

/-! ## C10: which stage gives which error -/

theorem scanCalls_ends (n : Nat) (feed : List (Except GoError (List AnyValue)))
    (h : firstScanError feed = none) :
    ∃ before, scanCalls n feed = before ++ [Call.Next false] := by
  induction feed with
  | nil => exact ⟨[], rfl⟩
  | cons x rest ih =>
    cases x with
    | error e => simp [firstScanError] at h
    | ok w =>
      obtain ⟨before, hb⟩ := ih (by simpa [firstScanError] using h)
      exact ⟨Call.Next true :: Call.Scan n :: before, by simp [scanCalls, hb]⟩

theorem err_not_mem_scanCalls (n : Nat) (feed : List (Except GoError (List AnyValue))) :
    Call.Err ∉ scanCalls n feed := by
  intro h
  rcases mem_scanCalls _ _ _ h with h | h | h <;> exact Call.noConfusion h

theorem err_after_next_false (n : Nat) (feed : List (Except GoError (List AnyValue)))
    (head tail : List Call) (h : firstScanError feed = none)
    (hhead : Call.Err ∉ head) (htail : Call.Err ∉ tail) :
    ∃ before after, head ++ (scanCalls n feed ++ Call.Err :: tail) =
        before ++ Call.Next false :: Call.Err :: after ∧
      Call.Err ∉ before ∧ Call.Err ∉ after := by
  obtain ⟨mid, hmid⟩ := scanCalls_ends n feed h
  have hm : Call.Err ∉ mid := by
    intro hin
    exact err_not_mem_scanCalls n feed (by rw [hmid]; exact List.mem_append_left _ hin)
  refine ⟨head ++ mid, tail, by rw [hmid]; simp, ?_, htail⟩
  intro hin
  rcases List.mem_append.mp hin with h1 | h1
  · exact hhead h1
  · exact hm h1

/-- C10: on every invocation that passes the SELECT check, the failing stage names the
single error diagnostic, whose detail is the message of the error: a `QueryContext` error
gives "query failed"; a `Columns` error gives "columns failed", with no `Next` and no `Scan`
call made; a `Scan` error gives "scan failed"; an error from `Err` after the loop gives
"row iteration failed", however many rows were scanned before it.  `Err` is called at most
once, and only directly after a `Next` that returned false. -/
theorem failure_stage_names_error (env : Env) (cfg : sqliteQueryModel) (resp : ReadResponse)
    (db : dbRunner) (hentry : entryOK cfg resp = true)
    (hopen : env.newSQLiteDB (dsnOf cfg.DBPath.ValueString) = Except.ok db)
    (hns : notSelect cfg.Query.ValueString = false) :
    (∀ e, db.QueryContext cfg.Query.ValueString (boundArgs env cfg) = Except.error e →
        failedWith cfg resp (readWithModel env cfg resp) "query failed" e) ∧
      (∀ rows e, db.QueryContext cfg.Query.ValueString (boundArgs env cfg) = Except.ok rows →
        rows.Columns = Except.error e →
        failedWith cfg resp (readWithModel env cfg resp) "columns failed" e ∧
          (∀ b, Call.Next b ∉ (readWithModel env cfg resp).calls) ∧
          (∀ n, Call.Scan n ∉ (readWithModel env cfg resp).calls)) ∧
      (∀ rows cols e,
        db.QueryContext cfg.Query.ValueString (boundArgs env cfg) = Except.ok rows →
        rows.Columns = Except.ok cols → firstScanError rows.feed = some e →
        failedWith cfg resp (readWithModel env cfg resp) "scan failed" e) ∧
      (∀ rows cols e,
        db.QueryContext cfg.Query.ValueString (boundArgs env cfg) = Except.ok rows →
        rows.Columns = Except.ok cols → firstScanError rows.feed = none →
        rows.Err = some e →
        failedWith cfg resp (readWithModel env cfg resp) "row iteration failed" e ∧
          (readWithModel env cfg resp).calls.count (Call.Next true) = rows.feed.length) ∧
      (Call.Err ∈ (readWithModel env cfg resp).calls →
        ∃ before after, (readWithModel env cfg resp).calls =
            before ++ Call.Next false :: Call.Err :: after ∧
          Call.Err ∉ before ∧ Call.Err ∉ after) := by
  have hb := (bindParams_ok env cfg resp hentry).2
  refine ⟨?_, ?_, ?_, ?_, ?_⟩
  · intro e hq
    rw [path_queryFailed env cfg resp db e hentry hopen hns hq]
    exact failedWith_of cfg resp _ _ _ hb (by simp)
  · intro rows e hq hc
    rw [path_columnsFailed env cfg resp db rows e hentry hopen hns hq hc]
    exact ⟨failedWith_of cfg resp _ _ _ hb (by simp), by simp, by simp⟩
  · intro rows cols e hq hc hs
    rw [path_scanFailed env cfg resp db rows cols e hentry hopen hns hq hc hs]
    refine failedWith_of cfg resp _ _ _ hb ?_
    simp only [List.mem_cons, not_or]
    exact ⟨by simp, by simp, by simp, stateSet_not_mem_scanCalls _ _ _ (by simp)⟩
  · intro rows cols e hq hc hs he
    rw [path_rowsErr env cfg resp db rows cols e hentry hopen hns hq hc hs he]
    refine ⟨failedWith_of cfg resp _ _ _ hb ?_, ?_⟩
    · simp only [List.mem_cons, not_or]
      exact ⟨by simp, by simp, by simp, stateSet_not_mem_scanCalls _ _ _ (by simp)⟩
    · have hlen : rows.feed.length = (okRows rows.feed).length := by
        conv_lhs => rw [feed_all_ok rows.feed hs]
        simp
      simp only [List.count_cons, List.count_append, count_next_scanCalls _ _ hs, hlen]
      simp
  · intro hmem
    cases hq : db.QueryContext cfg.Query.ValueString (boundArgs env cfg) with
    | error e =>
      rw [path_queryFailed env cfg resp db e hentry hopen hns hq] at hmem
      simp at hmem
    | ok rows =>
      cases hc : rows.Columns with
      | error e =>
        rw [path_columnsFailed env cfg resp db rows e hentry hopen hns hq hc] at hmem
        simp at hmem
      | ok cols =>
        cases hs : firstScanError rows.feed with
        | some e =>
          rw [path_scanFailed env cfg resp db rows cols e hentry hopen hns hq hc hs] at hmem
          simp only [List.mem_cons, List.mem_append, List.mem_singleton, List.not_mem_nil,
            or_false] at hmem
          rcases hmem with h | h | h | h | h | h
          · exact Call.noConfusion h
          · exact Call.noConfusion h
          · exact Call.noConfusion h
          · exact absurd h (err_not_mem_scanCalls _ _)
          · exact Call.noConfusion h
          · exact Call.noConfusion h
        | none =>
          cases he : rows.Err with
          | some e =>
            rw [path_rowsErr env cfg resp db rows cols e hentry hopen hns hq hc hs he]
            exact err_after_next_false cols.length rows.feed
              [Call.newSQLiteDB (dsnOf cfg.DBPath.ValueString),
                Call.QueryContext cfg.Query.ValueString (boundArgs env cfg), Call.Columns]
              [Call.rowsClose rows.Close, Call.dbClose db.Close] hs (by simp) (by simp)
          | none =>
            rw [readWithModel_full env cfg resp db rows cols hentry
              ⟨hopen, hns, hq, hc, hs, he⟩]
            exact err_after_next_false cols.length rows.feed
              [Call.newSQLiteDB (dsnOf cfg.DBPath.ValueString),
                Call.QueryContext cfg.Query.ValueString (boundArgs env cfg), Call.Columns]
              [Call.StateSet, Call.rowsClose rows.Close, Call.dbClose db.Close] hs
              (by simp) (by simp)

/-- C10 (witness): the unit test `TestRead_rowsErr` (no row, `Err` answers "rows boom") ends
with the error "row iteration failed" and the detail "rows boom". -/
theorem failure_stage_names_error_witness :
    entryOK (modelOf "/tmp/any.db" "SELECT 1") freshResp = true ∧
      notSelect (modelOf "/tmp/any.db" "SELECT 1").Query.ValueString = false ∧
      failedWith (modelOf "/tmp/any.db" "SELECT 1") freshResp
        (readWithModel (stubEnv (stubRows (some [lit "c"]) [] none (some "rows boom")))
          (modelOf "/tmp/any.db" "SELECT 1") freshResp)
        "row iteration failed" "rows boom" :=
  ⟨by decide, by decide,
    ((failure_stage_names_error (stubEnv (stubRows (some [lit "c"]) [] none (some "rows boom")))
      (modelOf "/tmp/any.db" "SELECT 1") freshResp
      ⟨fun _ _ => Except.ok (stubRows (some [lit "c"]) [] none (some "rows boom")), none⟩
      (by decide) rfl (by decide)).2.2.2.1
      (stubRows (some [lit "c"]) [] none (some "rows boom")) [lit "c"] "rows boom"
      rfl rfl (by decide) rfl).1⟩

/-! ## C5: facts about UTF-8 decoding -/

theorem firstByte_some (s0 sz lo hi : Nat) (h : firstByte s0 = some (sz, lo, hi)) :
    0xC2 ≤ s0 ∧ s0 ≤ 0xF4 ∧ 0x80 ≤ lo ∧ hi ≤ 0xBF ∧
      ((sz = 2 ∧ s0 < 0xE0) ∨ (sz = 3 ∧ 0xE0 ≤ s0 ∧ s0 < 0xF0) ∨
        (sz = 4 ∧ 0xF0 ≤ s0 ∧ (0xF1 ≤ s0 ∨ 0x90 ≤ lo))) ∧
      (s0 = 0xE2 → lo = 0x80 ∧ hi = 0xBF) := by
  unfold firstByte at h
  split_ifs at h <;> simp only [Option.some.injEq, Prod.mk.injEq] at h <;> omega

theorem decodeRune_take4 (s : GoString) :
    DecodeRuneInString (s.take 4) = DecodeRuneInString s := by
  rcases s with _ | ⟨a, _ | ⟨b, _ | ⟨c, _ | ⟨d, t⟩⟩⟩⟩
  · rfl
  · rfl
  · rfl
  · rfl
  · simp only [List.take_succ_cons, List.take_zero, DecodeRuneInString, List.length_cons,
      List.length_nil]
    split
    · rfl
    · split
      · rfl
      · rename_i sz lo hi hf
        have hsz := firstByte_some _ _ _ _ hf
        have h1 : ¬ (0 + 1 + 1 + 1 + 1 < sz) := by omega
        have h2 : ¬ (t.length + 1 + 1 + 1 + 1 < sz) := by omega
        simp only [h1, h2, if_false]

theorem encodeRune_2028 : EncodeRune 0x2028 = [0xE2, 0x80, 0xA8] := by decide

theorem encodeRune_2029 : EncodeRune 0x2029 = [0xE2, 0x80, 0xA9] := by decide

theorem decodeRune_multi (b : Nat) (rest : GoString) (c size : Nat) (hb : ¬ b < 0x80)
    (h : DecodeRuneInString (b :: rest) = (c, size)) (hv : ¬ (c = RuneError ∧ size = 1)) :
    ∃ seg more, b :: rest = seg ++ more ∧ seg.length = size ∧ 2 ≤ size ∧ rest.drop (size - 1) = more ∧
      (∀ x ∈ seg, 0x80 ≤ x) ∧ ((c = 0x2028 ∨ c = 0x2029) → seg = EncodeRune c) := by
  have hbad : (RuneError, 1) = (c, size) → False := by
    intro heq
    simp only [Prod.mk.injEq] at heq
    exact hv ⟨heq.1.symm, heq.2.symm⟩
  simp only [DecodeRuneInString, hb, if_false] at h
  cases hf : firstByte b with
  | none => rw [hf] at h; exact (hbad h).elim
  | some info =>
    obtain ⟨sz, lo, hi⟩ := info
    have hfb := firstByte_some _ _ _ _ hf
    rw [hf] at h
    simp only at h
    by_cases hlen : (b :: rest).length < sz
    · rw [if_pos hlen] at h; exact (hbad h).elim
    · rw [if_neg hlen] at h
      rcases rest with _ | ⟨s1, t1⟩
      · exact (hbad h).elim
      · simp only at h
        by_cases h1 : s1 < lo ∨ hi < s1
        · rw [if_pos h1] at h; exact (hbad h).elim
        · rw [if_neg h1] at h
          by_cases h2 : sz ≤ 2
          · rw [if_pos h2] at h
            simp only [Prod.mk.injEq] at h
            refine ⟨[b, s1], t1, rfl, by simp [← h.2], by omega, by simp [← h.2], ?_, ?_⟩
            · intro x hx
              simp only [List.mem_cons, List.mem_singleton, List.not_mem_nil, or_false] at hx
              rcases hx with rfl | rfl <;> omega
            · intro hc; omega
          · rw [if_neg h2] at h
            rcases t1 with _ | ⟨s2, t2⟩
            · exact (hbad h).elim
            · simp only at h
              by_cases h3 : s2 < 0x80 ∨ 0xBF < s2
              · rw [if_pos h3] at h; exact (hbad h).elim
              · rw [if_neg h3] at h
                by_cases h4 : sz ≤ 3
                · rw [if_pos h4] at h
                  simp only [Prod.mk.injEq] at h
                  refine ⟨[b, s1, s2], t2, rfl, by simp [← h.2], by omega, by simp [← h.2], ?_, ?_⟩
                  · intro x hx
                    simp only [List.mem_cons, List.mem_singleton, List.not_mem_nil,
                      or_false] at hx
                    rcases hx with rfl | rfl | rfl <;> omega
                  · intro hc
                    have hb2 : b = 0xE2 := by omega
                    have hs1 : s1 = 0x80 := by omega
                    rcases hc with hc | hc
                    · have hs2 : s2 = 0xA8 := by omega
                      rw [hc, encodeRune_2028, hb2, hs1, hs2]
                    · have hs2 : s2 = 0xA9 := by omega
                      rw [hc, encodeRune_2029, hb2, hs1, hs2]
                · rw [if_neg h4] at h
                  rcases t2 with _ | ⟨s3, t3⟩
                  · exact (hbad h).elim
                  · simp only at h
                    by_cases h5 : s3 < 0x80 ∨ 0xBF < s3
                    · rw [if_pos h5] at h; exact (hbad h).elim
                    · rw [if_neg h5] at h
                      simp only [Prod.mk.injEq] at h
                      refine ⟨[b, s1, s2, s3], t3, rfl, by simp [← h.2], by omega, by simp [← h.2],
                        ?_, ?_⟩
                      · intro x hx
                        simp only [List.mem_cons, List.mem_singleton, List.not_mem_nil,
                          or_false] at hx
                        rcases hx with rfl | rfl | rfl | rfl <;> omega
                      · intro hc; omega

/-! ## C5: a string survives encoding and decoding -/

theorem prepend_some (a s r : GoString) : prepend a (some (s, r)) = some (a ++ s, r) := rfl

theorem decodeChars_mono (fuel : Nat) :
    ∀ (more : Nat) (text : GoString) (r : GoString × GoString),
      decodeChars fuel text = some r → decodeChars (fuel + more) text = some r := by
  induction fuel with
  | zero => intro more text r h; simp [decodeChars] at h
  | succ fuel ih =>
    intro more text r h
    rcases text with _ | ⟨c, rest⟩
    · simp [decodeChars] at h
    · rw [show fuel + 1 + more = (fuel + more) + 1 by omega]
      simp only [decodeChars] at h ⊢
      split_ifs at h ⊢ with h1 h2 h3
      · exact h
      · cases hd : decodeEscape rest with
        | none => rw [hd] at h; simp at h
        | some p =>
          obtain ⟨bytes, k⟩ := p
          rw [hd] at h
          simp only at h ⊢
          cases hr : decodeChars fuel (rest.drop k) with
          | none => rw [hr] at h; simp [prepend] at h
          | some r2 => rw [hr] at h; rw [ih more _ r2 hr]; exact h
      · cases hr : decodeChars fuel rest with
        | none => rw [hr] at h; simp [prepend] at h
        | some r2 => rw [hr] at h; rw [ih more _ r2 hr]; exact h

theorem decodeChars_le (fuel fuel2 : Nat) (text : GoString) (r : GoString × GoString)
    (h : decodeChars fuel text = some r) (hle : fuel ≤ fuel2) :
    decodeChars fuel2 text = some r := by
  have := decodeChars_mono fuel (fuel2 - fuel) text r h
  rwa [show fuel + (fuel2 - fuel) = fuel2 by omega] at this

theorem decodeChars_quote (fuel : Nat) (rest : GoString) :
    decodeChars (fuel + 1) (0x22 :: rest) = some ([], rest) := by
  simp [decodeChars]

theorem decodeChars_raw (fuel c : Nat) (rest : GoString) (h1 : c ≠ 0x22) (h2 : c ≠ 0x5C)
    (h3 : ¬ c < 0x20) :
    decodeChars (fuel + 1) (c :: rest) = prepend [c] (decodeChars fuel rest) := by
  simp [decodeChars, h1, h2, h3]

theorem decodeChars_escape (fuel k : Nat) (rest bytes : GoString)
    (h : decodeEscape rest = some (bytes, k)) :
    decodeChars (fuel + 1) (0x5C :: rest) = prepend bytes (decodeChars fuel (rest.drop k)) := by
  simp [decodeChars, h]

theorem decodeEscape_simple (e b : Nat) (rest : GoString) (h1 : e ≠ 0x75)
    (h2 : simpleEscape e = some b) : decodeEscape (e :: rest) = some ([b], 1) := by
  simp [decodeEscape, h1, h2]

theorem decodeEscape_u (h1 h2 h3 h4 rr : Nat) (rest : GoString)
    (hx : hex4 h1 h2 h3 h4 = some rr) (hs : ¬ (0xD800 ≤ rr ∧ rr < 0xDC00)) :
    decodeEscape (0x75 :: h1 :: h2 :: h3 :: h4 :: rest) = some (EncodeRune rr, 5) := by
  simp only [decodeEscape, hx, if_true]
  simp [hs]

theorem decodeChars_seg (seg more s tail : GoString) (fuel : Nat) (h : ∀ x ∈ seg, 0x80 ≤ x)
    (hm : decodeChars fuel more = some (s, tail)) :
    decodeChars (seg.length + fuel) (seg ++ more) = some (seg ++ s, tail) := by
  induction seg with
  | nil => simpa using hm
  | cons c rest ih =>
    have hc : 0x80 ≤ c := h c (List.mem_cons_self _ _)
    rw [List.cons_append, show (c :: rest).length + fuel = (rest.length + fuel) + 1 by
        simp only [List.length_cons]; omega,
      decodeChars_raw _ c _ (by omega) (by omega) (by omega),
      ih (fun x hx => h x (List.mem_cons_of_mem _ hx))]
    rfl

theorem hexVal_hexDigit (n : Nat) (h : n < 16) : hexVal (hexDigit n) = some n := by
  unfold hexVal hexDigit
  split_ifs <;> first | omega | (simp only [Option.some.injEq]; omega)

theorem hex4_byte (b : Nat) (h : b < 0x100) :
    hex4 0x30 0x30 (hexDigit (b / 16)) (hexDigit (b % 16)) = some b := by
  have h0 : hexVal 0x30 = some 0 := by decide
  simp only [hex4, h0, hexVal_hexDigit (b / 16) (by omega), hexVal_hexDigit (b % 16) (by omega),
    Option.some.injEq]
  omega

theorem hex4_2028 (c : Nat) (h : c = 0x2028 ∨ c = 0x2029) :
    hex4 0x32 0x30 0x32 (hexDigit (c % 16)) = some c := by
  rcases h with rfl | rfl <;> decide

theorem escapeByte_decodes (b : Nat) (more : GoString) (hb : b < 0x80) :
    ∃ esc k, escapeByte b = 0x5C :: esc ∧ decodeEscape (esc ++ more) = some ([b], k) ∧
      (esc ++ more).drop k = more ∧ esc.length ≤ 5 := by
  unfold escapeByte
  split_ifs with h1 h2 h3 h4 h5 h6
  · have hs : simpleEscape b = some b := by
      rcases h1 with rfl | rfl <;> decide
    exact ⟨[b], 1, rfl, decodeEscape_simple b b more (by omega) hs, rfl, by simp⟩
  · exact ⟨[0x62], 1, rfl, decodeEscape_simple _ _ more (by decide) (by rw [h2]; decide), rfl,
      by simp⟩
  · exact ⟨[0x66], 1, rfl, decodeEscape_simple _ _ more (by decide) (by rw [h3]; decide), rfl,
      by simp⟩
  · exact ⟨[0x6E], 1, rfl, decodeEscape_simple _ _ more (by decide) (by rw [h4]; decide), rfl,
      by simp⟩
  · exact ⟨[0x72], 1, rfl, decodeEscape_simple _ _ more (by decide) (by rw [h5]; decide), rfl,
      by simp⟩
  · exact ⟨[0x74], 1, rfl, decodeEscape_simple _ _ more (by decide) (by rw [h6]; decide), rfl,
      by simp⟩
  · refine ⟨[0x75, 0x30, 0x30, hexDigit (b / 16), hexDigit (b % 16)], 5, rfl, ?_, rfl, by simp⟩
    have := decodeEscape_u _ _ _ _ b more (hex4_byte b (by omega)) (by omega)
    simpa [EncodeRune, hb] using this

theorem decodeChars_appendStringLoop (raw : Bool) (n : Nat) :
    ∀ (s tail : GoString), s.length ≤ n → validLoop n s = true →
      decodeChars ((appendStringLoop raw n s).length + 1) (appendStringLoop raw n s ++ 0x22 :: tail) =
        some (s, tail) := by
  induction n with
  | zero =>
    intro s tail hlen _
    have : s = [] := List.eq_nil_of_length_eq_zero (by omega)
    subst this
    simp [appendStringLoop, decodeChars]
  | succ n ih =>
    intro s tail hlen hvalid
    rcases s with _ | ⟨b, rest⟩
    · simp [appendStringLoop, decodeChars]
    · by_cases hb : b < 0x80
      · have hv : validLoop n rest = true := by
          simp only [validLoop, DecodeRuneInString, hb, if_true] at hvalid
          have hne : ¬ (b = RuneError ∧ True) := by
            simp only [RuneError]; omega
          rw [if_neg hne] at hvalid
          simpa using hvalid
        have hrest := ih rest tail (by simp only [List.length_cons] at hlen; omega) hv
        simp only [appendStringLoop, hb, if_true, List.append_assoc]
        by_cases hsafe : htmlSafeSet b = true
        · simp only [hsafe, if_true]
          have hs := hsafe
          simp only [htmlSafeSet, decide_eq_true_eq] at hs
          rw [show ([b] ++ appendStringLoop raw n rest).length + 1 =
              ((appendStringLoop raw n rest).length + 1) + 1 by simp,
            show [b] ++ (appendStringLoop raw n rest ++ 0x22 :: tail) =
              b :: (appendStringLoop raw n rest ++ 0x22 :: tail) from rfl,
            decodeChars_raw _ b _ (by omega) (by omega) (by omega), hrest]
          rfl
        · simp only [hsafe, Bool.false_eq_true, if_false]
          obtain ⟨esc, k, he, hd, hdrop, hl⟩ :=
            escapeByte_decodes b (appendStringLoop raw n rest ++ 0x22 :: tail) hb
          rw [he, show (0x5C :: esc ++ appendStringLoop raw n rest).length + 1 =
              (esc.length + ((appendStringLoop raw n rest).length + 1)) + 1 by
                simp only [List.length_cons, List.length_append]; omega,
            show 0x5C :: esc ++ (appendStringLoop raw n rest ++ 0x22 :: tail) =
              0x5C :: (esc ++ (appendStringLoop raw n rest ++ 0x22 :: tail)) from rfl,
            decodeChars_escape _ k _ _ hd, hdrop,
            decodeChars_le _ _ _ _ hrest (by omega)]
          rfl
      · cases hd : DecodeRuneInString (b :: rest) with
        | mk c size =>
          have hnot : ¬ (c = RuneError ∧ size = 1) := by
            intro hbad
            simp only [validLoop, hd, hbad, and_self, if_true] at hvalid
            exact Bool.noConfusion hvalid
          have hv : validLoop n (rest.drop (size - 1)) = true := by
            simpa only [validLoop, hd, hnot, if_false] using hvalid
          obtain ⟨seg, more, hsplit, hseglen, hsize, hdrop, hsegbytes, hsep⟩ :=
            decodeRune_multi b rest c size hb hd hnot
          rw [hdrop] at hv
          have hlen2 : more.length ≤ n := by
            have := congrArg List.length hsplit
            simp only [List.length_cons, List.length_append] at this hlen
            omega
          have hmore := ih more tail hlen2 hv
          have htake : (b :: rest).take size = seg := by
            rw [hsplit, ← hseglen, List.take_left']
            rfl
          simp only [appendStringLoop, hb, if_false, decodeRune_take4, hd, hnot, hdrop]
          by_cases hc : c = 0x2028 ∨ c = 0x2029
          · simp only [hc, if_true, List.append_assoc]
            have hesc := decodeEscape_u 0x32 0x30 0x32 (hexDigit (c % 16)) c
              (appendStringLoop raw n more ++ 0x22 :: tail) (hex4_2028 c hc) (by omega)
            rw [show ([0x5C, 0x75, 0x32, 0x30, 0x32, hexDigit (c % 16)] ++
                  appendStringLoop raw n more).length + 1 =
                (5 + ((appendStringLoop raw n more).length + 1)) + 1 by
                  simp only [List.length_cons, List.length_append, List.length_nil]; omega,
              show [0x5C, 0x75, 0x32, 0x30, 0x32, hexDigit (c % 16)] ++
                  (appendStringLoop raw n more ++ 0x22 :: tail) =
                0x5C :: (0x75 :: 0x32 :: 0x30 :: 0x32 :: hexDigit (c % 16) ::
                  (appendStringLoop raw n more ++ 0x22 :: tail)) from rfl,
              decodeChars_escape _ 5 _ _ hesc]
            simp only [List.drop_succ_cons, List.drop_zero]
            rw [decodeChars_le _ _ _ _ hmore (by omega), ← hsep hc, prepend_some, hsplit]
          · simp only [hc, if_false, htake, List.append_assoc]
            rw [show (seg ++ appendStringLoop raw n more).length + 1 =
                seg.length + ((appendStringLoop raw n more).length + 1) by
                  simp only [List.length_append]; omega,
              decodeChars_seg seg _ more tail _ hsegbytes hmore, hsplit]

theorem skipSpace_of_not_space (c : Nat) (rest : GoString)
    (h : ¬ (c = 0x20 ∨ c = 0x09 ∨ c = 0x0A ∨ c = 0x0D)) : skipSpace (c :: rest) = c :: rest := by
  simp only [skipSpace, h, if_false]

theorem decodeString_appendString (raw : Bool) (s tail : GoString) (h : ValidString s = true) :
    decodeString (appendString raw s ++ tail) = some (s, tail) := by
  unfold decodeString appendString
  rw [List.cons_append, skipSpace_of_not_space _ _ (by decide)]
  simp only [if_true, List.append_assoc]
  exact decodeChars_le _ _ _ _
    (decodeChars_appendStringLoop raw s.length s tail (Nat.le_refl _) h)
    (by simp only [List.length_append, List.length_cons, List.singleton_append]; omega)

/-! ## C5: objects and arrays survive encoding and decoding -/

theorem appendString_head (raw : Bool) (s : GoString) : ∃ t, appendString raw s = 0x22 :: t :=
  ⟨_, rfl⟩

theorem decodeMember_marshalEntry (raw : Bool) (e : GoString × GoString) (tail : GoString)
    (h1 : ValidString e.1 = true) (h2 : ValidString e.2 = true) :
    decodeMember (marshalEntry raw e ++ tail) = some (e, tail) := by
  unfold decodeMember marshalEntry
  rw [List.append_assoc, decodeString_appendString raw _ _ h1]
  simp only [List.cons_append]
  rw [skipSpace_of_not_space _ _ (by decide)]
  simp only [if_true]
  rw [decodeString_appendString raw _ _ h2]

theorem joinComma_cons (x : GoString) (xs : List GoString) :
    joinComma (x :: xs) = x ++ xs.flatMap (fun y => 0x2C :: y) := by
  induction xs generalizing x with
  | nil => simp [joinComma]
  | cons y ys ih => simp [joinComma, ih y]

theorem decodeMembersTail_ok (raw : Bool) (es : GoMap) :
    ∀ (fuel : Nat) (tail : GoString), es.length < fuel →
      (∀ e ∈ es, ValidString e.1 = true ∧ ValidString e.2 = true) →
      decodeMembersTail fuel
          ((es.map (marshalEntry raw)).flatMap (fun y => 0x2C :: y) ++ 0x7D :: tail) =
        some (es, tail) := by
  induction es with
  | nil =>
    intro fuel tail hf _
    obtain ⟨f, rfl⟩ : ∃ f, fuel = f + 1 := ⟨fuel - 1, by simp only [List.length_nil] at hf; omega⟩
    simp only [List.map_nil, List.flatMap_nil, List.nil_append, decodeMembersTail]
    rw [skipSpace_of_not_space _ _ (by decide)]
    simp
  | cons e rest ih =>
    intro fuel tail hf hv
    obtain ⟨f, rfl⟩ : ∃ f, fuel = f + 1 := ⟨fuel - 1, by simp only [List.length_cons] at hf; omega⟩
    have he := hv e (List.mem_cons_self _ _)
    simp only [List.map_cons, List.flatMap_cons, List.cons_append, List.append_assoc,
      decodeMembersTail]
    rw [skipSpace_of_not_space _ _ (by decide)]
    simp only [show ¬ (0x2C : Nat) = 0x7D by decide, if_false, if_true]
    rw [decodeMember_marshalEntry raw e _ he.1 he.2]
    simp only
    rw [ih f tail (by simp only [List.length_cons] at hf; omega)
      (fun x hx => hv x (List.mem_cons_of_mem _ hx))]

theorem decodeObject_ok (raw : Bool) (es : GoMap) (fuel : Nat) (tail : GoString) (hf : es.length ≤ fuel)
    (hv : ∀ e ∈ es, ValidString e.1 = true ∧ ValidString e.2 = true) :
    decodeObject fuel (0x7B :: (joinComma (es.map (marshalEntry raw)) ++ [0x7D]) ++ tail) =
      some (es, tail) := by
  unfold decodeObject
  rw [List.cons_append, skipSpace_of_not_space _ _ (by decide)]
  simp only [if_true]
  rcases es with _ | ⟨e, rest⟩
  · simp only [List.map_nil, joinComma, List.nil_append, List.singleton_append]
    rw [skipSpace_of_not_space _ _ (by decide)]
    simp
  · have he := hv e (List.mem_cons_self _ _)
    obtain ⟨t, ht⟩ := appendString_head raw e.1
    have hstart : ∃ t2, joinComma ((e :: rest).map (marshalEntry raw)) ++ [0x7D] ++ tail =
        0x22 :: t2 := by
      refine ⟨t ++ 0x3A :: appendString raw e.2 ++
        (rest.map (marshalEntry raw)).flatMap (fun y => 0x2C :: y) ++ [0x7D] ++ tail, ?_⟩
      rw [List.map_cons, joinComma_cons, marshalEntry, ht]
      simp
    obtain ⟨t2, ht2⟩ := hstart
    rw [ht2, skipSpace_of_not_space _ _ (by decide)]
    simp only [show ¬ (0x22 : Nat) = 0x7D by decide, if_false]
    rw [← ht2, List.map_cons, joinComma_cons, List.append_assoc, List.append_assoc,
      decodeMember_marshalEntry raw e _ he.1 he.2]
    simp only [List.singleton_append]
    rw [decodeMembersTail_ok raw rest fuel tail (by simp only [List.length_cons] at hf; omega)
      (fun x hx => hv x (List.mem_cons_of_mem _ hx))]

theorem perm_insertEntry (e : GoString × GoString) (l : GoMap) :
    (insertEntry e l).Perm (e :: l) := by
  induction l with
  | nil => exact List.Perm.refl _
  | cons x rest ih =>
    simp only [insertEntry]
    split
    · exact List.Perm.refl _
    · exact (List.Perm.cons x ih).trans (List.Perm.swap e x rest)

theorem perm_sortEntries (m : GoMap) : (sortEntries m).Perm m := by
  induction m with
  | nil => exact List.Perm.refl _
  | cons e rest ih => exact (perm_insertEntry e _).trans (List.Perm.cons e ih)

theorem length_flatMap_ge (l : List GoString) :
    l.length ≤ (l.flatMap (fun y => 0x2C :: y)).length := by
  induction l with
  | nil => simp
  | cons x rest ih =>
    simp only [List.flatMap_cons, List.length_cons, List.cons_append, List.length_append]
    omega

theorem length_joinComma_ge (l : List GoString) : l.length ≤ (joinComma l).length + 1 := by
  rcases l with _ | ⟨x, rest⟩
  · simp
  · rw [joinComma_cons, List.length_append, List.length_cons]
    have := length_flatMap_ge rest
    omega

theorem decodeObject_marshalMap (raw : Bool) (m : GoMap) (fuel : Nat) (tail : GoString)
    (hf : (marshalMap raw m).length ≤ fuel + 1)
    (hv : ∀ e ∈ m, ValidString e.1 = true ∧ ValidString e.2 = true) :
    decodeObject fuel (marshalMap raw m ++ tail) = some (sortEntries m, tail) := by
  unfold marshalMap at hf ⊢
  apply decodeObject_ok
  · have := length_joinComma_ge ((sortEntries m).map (marshalEntry raw))
    simp only [List.length_map, List.length_cons, List.length_append, List.length_nil] at this hf
    omega
  · intro e he
    exact hv e ((perm_sortEntries m).mem_iff.mp he)

theorem marshalMap_head (raw : Bool) (m : GoMap) : ∃ t, marshalMap raw m = 0x7B :: t := ⟨_, rfl⟩

theorem decodeElementsTail_ok (raw : Bool) (ms : List GoMap) :
    ∀ (fuel : Nat) (tail : GoString), ms.length < fuel →
      (∀ m ∈ ms, ∀ e ∈ m, ValidString e.1 = true ∧ ValidString e.2 = true) →
      decodeElementsTail fuel
          ((ms.map (marshalMap raw)).flatMap (fun y => 0x2C :: y) ++ 0x5D :: tail) =
        some (ms.map sortEntries, tail) := by
  induction ms with
  | nil =>
    intro fuel tail hf _
    obtain ⟨f, rfl⟩ : ∃ f, fuel = f + 1 := ⟨fuel - 1, by simp only [List.length_nil] at hf; omega⟩
    simp only [List.map_nil, List.flatMap_nil, List.nil_append, decodeElementsTail]
    rw [skipSpace_of_not_space _ _ (by decide)]
    simp
  | cons m rest ih =>
    intro fuel tail hf hv
    obtain ⟨f, rfl⟩ : ∃ f, fuel = f + 1 := ⟨fuel - 1, by simp only [List.length_cons] at hf; omega⟩
    simp only [List.map_cons, List.flatMap_cons, List.cons_append, List.append_assoc,
      decodeElementsTail]
    rw [skipSpace_of_not_space _ _ (by decide)]
    simp only [show ¬ (0x2C : Nat) = 0x5D by decide, if_false, if_true]
    rw [decodeObject_marshalMap raw m _ _ (by simp only [List.length_append]; omega)
      (hv m (List.mem_cons_self _ _))]
    simp only
    rw [ih f tail (by simp only [List.length_cons] at hf; omega)
      (fun x hx => hv x (List.mem_cons_of_mem _ hx))]

theorem decodeArray_Marshal (raw : Bool) (rows : List GoMap)
    (hv : ∀ m ∈ rows, ∀ e ∈ m, ValidString e.1 = true ∧ ValidString e.2 = true) :
    decodeArray (Marshal raw rows) = some (rows.map sortEntries, []) := by
  unfold decodeArray Marshal
  rw [skipSpace_of_not_space _ _ (by decide)]
  simp only [if_true]
  rcases rows with _ | ⟨m, rest⟩
  · simp only [List.map_nil, joinComma, List.nil_append]
    rw [skipSpace_of_not_space _ _ (by decide)]
    simp
  · obtain ⟨t, ht⟩ := marshalMap_head raw m
    have hstart : joinComma ((m :: rest).map (marshalMap raw)) ++ [0x5D] =
        0x7B :: (t ++ ((rest.map (marshalMap raw)).flatMap (fun y => 0x2C :: y) ++ [0x5D])) := by
      rw [List.map_cons, joinComma_cons, ht]
      simp
    rw [hstart, skipSpace_of_not_space _ _ (by decide)]
    simp only [show ¬ (0x7B : Nat) = 0x5D by decide, if_false]
    rw [show 0x7B :: (t ++ ((rest.map (marshalMap raw)).flatMap (fun y => 0x2C :: y) ++ [0x5D])) =
        marshalMap raw m ++ ((rest.map (marshalMap raw)).flatMap (fun y => 0x2C :: y) ++ [0x5D]) by
          rw [ht]; rfl,
      decodeObject_marshalMap raw m _ _ (by simp only [List.length_append]; omega)
        (hv m (List.mem_cons_self _ _))]
    simp only
    rw [decodeElementsTail_ok raw rest _ [] ?_ (fun x hx => hv x (List.mem_cons_of_mem _ hx))]
    · rfl
    · have := length_flatMap_ge (rest.map (marshalMap raw))
      simp only [List.length_map, List.length_append, List.length_cons, List.length_nil] at this ⊢
      omega

theorem Unmarshal_Marshal (raw : Bool) (rows : List GoMap)
    (hv : ∀ m ∈ rows, ∀ e ∈ m, ValidString e.1 = true ∧ ValidString e.2 = true) :
    Unmarshal (Marshal raw rows) = some (rows.map (fun m => objectToMap (sortEntries m))) := by
  unfold Unmarshal
  rw [decodeArray_Marshal raw rows hv]
  simp [skipSpace]

theorem objectToMap_fresh (l : GoMap) (m : GoMap)
    (h : (GoMap.keys m ++ GoMap.keys l).Nodup) :
    l.foldl (fun acc e => GoMap.set acc e.1 e.2) m = m ++ l := by
  induction l generalizing m with
  | nil => simp
  | cons x rest ih =>
    have hx : x.1 ∉ GoMap.keys m := by
      intro hmem
      rw [List.nodup_append] at h
      exact h.2.2 hmem (by simp [GoMap.keys])
    rw [List.foldl_cons, set_of_not_mem m _ _ hx, ih]
    · simp
    · simpa [GoMap.keys, List.append_assoc] using h

theorem objectToMap_nodup (l : GoMap) (h : (GoMap.keys l).Nodup) : objectToMap l = l := by
  unfold objectToMap
  rw [objectToMap_fresh l [] (by simpa [GoMap.keys] using h)]
  rfl

theorem lookup_perm (k : GoString) (a b : GoMap) (hp : a.Perm b) (hn : (GoMap.keys a).Nodup) :
    List.lookup k a = List.lookup k b := by
  induction hp with
  | nil => rfl
  | cons x _ ih =>
    obtain ⟨k0, v0⟩ := x
    simp only [GoMap.keys, List.map_cons, List.nodup_cons] at hn
    simp only [List.lookup_cons]
    rw [ih (by simpa [GoMap.keys] using hn.2)]
  | swap x y l =>
    obtain ⟨kx, vx⟩ := x
    obtain ⟨ky, vy⟩ := y
    simp only [GoMap.keys, List.map_cons, List.nodup_cons, List.mem_cons, not_or] at hn
    have hne : ky ≠ kx := hn.1.1
    simp only [List.lookup_cons]
    by_cases h1 : k = ky
    · subst h1
      have : (k == kx) = false := by simpa using hne
      simp [this]
    · have : (k == ky) = false := by simpa using h1
      simp [this]
  | trans hab _ ih1 ih2 =>
    rw [ih1 hn, ih2]
    exact (hab.map Prod.fst).nodup_iff.mp hn

theorem get_objectToMap_sortEntries (m : GoMap) (k : GoString) (h : (GoMap.keys m).Nodup) :
    GoMap.get? (objectToMap (sortEntries m)) k = GoMap.get? m k := by
  have hp := perm_sortEntries m
  have hn : (GoMap.keys (sortEntries m)).Nodup := (hp.map Prod.fst).nodup_iff.mpr h
  rw [objectToMap_nodup _ hn]
  exact lookup_perm k _ _ hp hn

/-! ## C5: result_json against rows -/

theorem json_round_trip (env : Env) (cfg : sqliteQueryModel) (resp : ReadResponse)
    (db : dbRunner) (rows : rowIterator) (cols : List GoString)
    (hentry : entryOK cfg resp = true) (hrun : runsThrough env cfg db rows cols)
    (hvalid : rowsValid ((okRows rows.feed).map (normalizeRow cols))) :
    ∃ decoded,
      Unmarshal (readWithModel env cfg resp).cfg.ResultJSON.ValueString = some decoded ∧
        (readWithModel env cfg resp).cfg.Rows =
          some ((okRows rows.feed).map (normalizeRow cols)) ∧
        sameRows decoded ((okRows rows.feed).map (normalizeRow cols)) := by
  rw [readWithModel_full env cfg resp db rows cols hentry hrun]
  refine ⟨((okRows rows.feed).map (normalizeRow cols)).map
    (fun m => objectToMap (sortEntries m)), ?_, rfl, ?_, ?_⟩
  · exact Unmarshal_Marshal _ _ hvalid
  · simp
  · intro i k
    by_cases hi : i < (okRows rows.feed).length
    · simp only [List.getD_eq_getElem?_getD, List.getElem?_map, List.getElem?_eq_getElem hi,
        Option.map_some', Option.getD_some]
      exact get_objectToMap_sortEntries _ k (nodup_keys_normalizeRow cols _)
    · have hnone : (okRows rows.feed)[i]? = none := List.getElem?_eq_none (by omega)
      simp only [List.getD_eq_getElem?_getD, List.getElem?_map, hnone, Option.map_none',
        Option.getD_none]

/-- C5 (the code at the failing input): on the query of the acceptance test `blobAndNull`
the invocation succeeds and `rows` holds one row whose blob cell is the bytes 00 FF, while
`result_json`, under either toolchain, decodes as a JSON array of objects to one row whose
blob cell is 00 EF BF BD.  The decoded array has the length and the keys of `rows` and the
same value for `color`, but not the same value for `blobcol`: it does not equal `rows`
field for field. -/
theorem json_differs_on_invalid_bytes :
    (readWithModel blobEnv blobModel freshResp).cfg.Rows =
        some [[(lit "color", []), (lit "blobcol", [0x00, 0xFF])]] ∧
      Unmarshal (readWithModel blobEnv blobModel freshResp).cfg.ResultJSON.ValueString =
        some [[(lit "blobcol", [0x00, 0xEF, 0xBF, 0xBD]), (lit "color", [])]] ∧
      Unmarshal (readWithModel blobEnvV2 blobModel freshResp).cfg.ResultJSON.ValueString =
        some [[(lit "blobcol", [0x00, 0xEF, 0xBF, 0xBD]), (lit "color", [])]] ∧
      GoMap.get? [(lit "blobcol", [0x00, 0xEF, 0xBF, 0xBD]), (lit "color", [])] (lit "color") =
        GoMap.get? [(lit "color", []), (lit "blobcol", [0x00, 0xFF])] (lit "color") ∧
      GoMap.get? [(lit "blobcol", [0x00, 0xEF, 0xBF, 0xBD]), (lit "color", [])] (lit "blobcol") ≠
        GoMap.get? [(lit "color", []), (lit "blobcol", [0x00, 0xFF])] (lit "blobcol") ∧
      ¬ sameRows [[(lit "blobcol", [0x00, 0xEF, 0xBF, 0xBD]), (lit "color", [])]]
        [[(lit "color", []), (lit "blobcol", [0x00, 0xFF])]] := by
  refine ⟨by decide, by decide, by decide, by decide, by decide, ?_⟩
  intro h
  exact absurd (h.2 0 (lit "blobcol")) (by decide)

/-! ## C11: the opener comes before the SELECT check -/

theorem open_not_mem_runQuery (env : Env) (cfg : sqliteQueryModel) (resp : ReadResponse)
    (db : dbRunner) (q : GoString) (args : List NamedArg) (d : GoString) :
    Call.newSQLiteDB d ∉ (runQuery env cfg resp db q args).calls := by
  intro h
  cases hns : notSelect q with
  | true =>
    rw [runQuery_refused env cfg resp db q args hns] at h
    exact absurd h (List.not_mem_nil _)
  | false =>
    cases hq : db.QueryContext q args with
    | error err =>
      rw [runQuery_queryFailed env cfg resp db q args err hns hq] at h
      rw [List.mem_singleton] at h
      exact Call.noConfusion h
    | ok rows =>
      rw [runQuery_queried env cfg resp db q args rows hns hq] at h
      rcases List.mem_cons.mp h with h1 | h1
      · exact Call.noConfusion h1
      · rcases List.mem_append.mp h1 with h2 | h2
        · rcases readRows_calls_mem env cfg resp rows _ h2 with h3 | h3 | ⟨n, h3⟩ | h3 | h3 | h3 <;>
            exact Call.noConfusion h3
        · rw [List.mem_singleton] at h2
          exact Call.noConfusion h2

/-- C11: the SELECT check comes after the opener.  On every invocation that reaches the
opener, the opener is the first call, it is called once, and with the data source name
"file:" followed by `db_path` followed by "?mode=ro".  If it fails with error e then,
whatever the query is (a query that is not SELECT included), the response gains exactly one
diagnostic, the error "open sqlite db failed" with the message of e as detail; it holds
exactly one error, none with the summary "query must be SELECT"; nothing is called after
the opener, and the model and the state stay as they were.  The error "query must be
SELECT" is reported only when the opener has succeeded. -/
theorem open_failure_before_guard (env : Env) (cfg : sqliteQueryModel) (resp : ReadResponse)
    (hentry : entryOK cfg resp = true) :
    (∀ e, env.newSQLiteDB (lit "file:" ++ cfg.DBPath.ValueString ++ lit "?mode=ro") =
          Except.error e →
        failedWith cfg resp (readWithModel env cfg resp) "open sqlite db failed" e ∧
          Diagnostics.errorCount (readWithModel env cfg resp).resp.Diagnostics = 1 ∧
          (∀ d ∈ (readWithModel env cfg resp).resp.Diagnostics,
            d.severity = Severity.error → d.summary ≠ "query must be SELECT") ∧
          selectError ∉ (readWithModel env cfg resp).resp.Diagnostics ∧
          (readWithModel env cfg resp).calls =
            [Call.newSQLiteDB (lit "file:" ++ cfg.DBPath.ValueString ++ lit "?mode=ro")]) ∧
      (selectError ∈ (readWithModel env cfg resp).resp.Diagnostics →
        ∃ db, env.newSQLiteDB (lit "file:" ++ cfg.DBPath.ValueString ++ lit "?mode=ro") =
          Except.ok db) ∧
      (∃ later, (readWithModel env cfg resp).calls =
          Call.newSQLiteDB (lit "file:" ++ cfg.DBPath.ValueString ++ lit "?mode=ro") :: later ∧
        ∀ d, Call.newSQLiteDB d ∉ later) := by
  have hb := (bindParams_ok env cfg resp hentry).2
  have hfailed : ∀ e, env.newSQLiteDB (dsnOf cfg.DBPath.ValueString) = Except.error e →
      failedWith cfg resp (readWithModel env cfg resp) "open sqlite db failed" e ∧
        Diagnostics.errorCount (readWithModel env cfg resp).resp.Diagnostics = 1 ∧
        (∀ d ∈ (readWithModel env cfg resp).resp.Diagnostics,
          d.severity = Severity.error → d.summary ≠ "query must be SELECT") ∧
        selectError ∉ (readWithModel env cfg resp).resp.Diagnostics ∧
        (readWithModel env cfg resp).calls =
          [Call.newSQLiteDB (dsnOf cfg.DBPath.ValueString)] := by
    intro e hopen
    rw [readWithModel_openFailed env cfg resp e hentry hopen]
    have hd := (addError_diags (boundResp cfg resp) "open sqlite db failed" e hb).1
    refine ⟨failedWith_of cfg resp _ _ _ hb (by simp), ?_, ?_, ?_, rfl⟩
    · simp only [hd]
      exact errorCount_one _ _ _ hb
    · intro d hmem hsev
      simp only [hd, List.mem_append, List.mem_singleton] at hmem
      rcases hmem with h | h
      · exact absurd h (not_mem_of_noError _ d hb hsev)
      · rw [h]
        show "open sqlite db failed" ≠ "query must be SELECT"
        decide
    · simp only [hd, List.mem_append, List.mem_singleton, not_or]
      exact ⟨not_mem_of_noError _ _ hb rfl, by simp [selectError]⟩
  refine ⟨hfailed, ?_, ?_⟩
  · intro hmem
    cases hopen : env.newSQLiteDB (dsnOf cfg.DBPath.ValueString) with
    | error e => exact absurd hmem (hfailed e hopen).2.2.2.1
    | ok db => exact ⟨db, hopen⟩
  · cases hopen : env.newSQLiteDB (dsnOf cfg.DBPath.ValueString) with
    | error e =>
      refine ⟨[], (hfailed e hopen).2.2.2.2, fun d h => absurd h (List.not_mem_nil _)⟩
    | ok db =>
      rw [readWithModel_opened env cfg resp db hentry hopen]
      refine ⟨_, rfl, ?_⟩
      intro d h
      rcases List.mem_append.mp h with h1 | h1
      · exact open_not_mem_runQuery env cfg _ db _ _ d h1
      · rw [List.mem_singleton] at h1
        exact Call.noConfusion h1

/-- C11 (witness): the opener of the unit test `TestRead_openError` fails with "open boom";
with a missing database and a query that is not SELECT the only error is the one of the
opener. -/
theorem open_failure_before_guard_witness :
    entryOK (modelOf "/path/does/not/exist.db" "UPDATE fish SET count = 99;") freshResp = true ∧
      notSelect (modelOf "/path/does/not/exist.db"
        "UPDATE fish SET count = 99;").Query.ValueString = true ∧
      (readWithModel openErrorEnv
          (modelOf "/path/does/not/exist.db" "UPDATE fish SET count = 99;")
          freshResp).resp.Diagnostics =
        [⟨Severity.error, "open sqlite db failed", "open boom"⟩] ∧
      (readWithModel openErrorEnv
          (modelOf "/path/does/not/exist.db" "UPDATE fish SET count = 99;")
          freshResp).calls =
        [Call.newSQLiteDB (lit "file:/path/does/not/exist.db?mode=ro")] :=
  ⟨by decide, by decide,
    ((open_failure_before_guard openErrorEnv
      (modelOf "/path/does/not/exist.db" "UPDATE fish SET count = 99;") freshResp
      (by decide)).1 "open boom" rfl).1.1,
    ((open_failure_before_guard openErrorEnv
      (modelOf "/path/does/not/exist.db" "UPDATE fish SET count = 99;") freshResp
      (by decide)).1 "open boom" rfl).2.2.2.2⟩

end SqliteQuery
